import Mathlib

/-!
Verification of the InteriorDesign img2img API against its specification.

The Python sources are shallowly embedded:
* Python dicts become association lists (`alookup` / `aset` / `aupdate`,
  mirroring read, key assignment, and in-place record mutation);
* `time.time()` becomes a monotone natural-number clock threaded through
  the service state, advanced only by explicit `tick` steps;
* `uuid.uuid4()` becomes a fresh-id counter (the only property the code
  relies on is freshness of the generated id);
* calls into external systems (Florence captioner, OpenAI, Canny, Flux,
  the filesystem) become outcome parameters of type `Except`/`GptOutcome`,
  since their results are not computed by this repository;
* Python float arithmetic in `resize_image` is modelled as exact rational
  scaling; `int()` truncation of a nonnegative value is floor, which on
  exact values is natural-number division.
-/

namespace Img2Img

set_option maxRecDepth 100000

/-- Lookup in an association list, first match wins (Python dict read). -/
def alookup {κ α : Type} [DecidableEq κ] : List (κ × α) → κ → Option α
  | [], _ => none
  | (k0, a) :: rest, k => if k0 = k then some a else alookup rest k

/-- Key assignment in an association list: replace the existing binding,
or append a new one (Python `d[k] = v`, preserving insertion order). -/
def aset {κ α : Type} [DecidableEq κ] : List (κ × α) → κ → α → List (κ × α)
  | [], k, v => [(k, v)]
  | (k0, a) :: rest, k, v =>
    if k0 = k then (k0, v) :: rest else (k0, a) :: aset rest k v

/-- In-place mutation of the record stored under a key
(Python `d[k][field] = v` patterns). Untouched keys keep their records. -/
def aupdate {κ α : Type} [DecidableEq κ] : List (κ × α) → κ → (α → α) → List (κ × α)
  | [], _, _ => []
  | (k0, a) :: rest, k, f =>
    (if k0 = k then (k0, f a) else (k0, a)) :: aupdate rest k f


/-- Pixel dimensions of a PIL image (`input_img.size`). -/
structure ImageDims where
  width : Nat
  height : Nat
  deriving DecidableEq, Repr

/-- Round-to-nearest, ties-to-even, of the fraction `a / b` (for `0 < b`):
the integer rounding that IEEE-754 binary64 applies to a positive value
once it is scaled into the 53-bit significand range. -/
def roundNE (a b : Nat) : Nat :=
  let q := a / b
  let r := a % b
  if 2 * r < b then q
  else if b < 2 * r then q + 1
  else if q % 2 = 0 then q else q + 1

/-- Floor of the base-2 logarithm, by fuelled structural recursion: equal
to `Nat.log2` whenever `n < 2 ^ fuel`. The fuel makes it reducible by the
kernel, which the well-founded `Nat.log2` is not. -/
def log2f : Nat → Nat → Nat
  | 0, _ => 0
  | fuel + 1, n => if 2 ≤ n then log2f fuel (n / 2) + 1 else 0

/-- The positive rational `a / b` rounded to an IEEE-754 binary64 double,
exactly what Python's true division of the two ints `target_size` and
`max(width, height)` produces. The result `(n, e)` denotes the value
`n * 2 ^ (e - 52)`: `e` is the floor of the base-2 logarithm of `a / b`
and `n` its significand rounded to 53 bits, nearest, ties to even.
Overflow and subnormals cannot occur in the ranges this service handles. -/
def fl64 (a b : Nat) : Nat × Int :=
  let N := a * 2 ^ 200 / b
  let e : Int := (log2f 400 N : Int) - 200
  let n :=
    if 0 ≤ 52 - e then roundNE (a * 2 ^ (52 - e).toNat) b
    else roundNE a (b * 2 ^ (e - 52).toNat)
  (n, e)

/-- Binary64 multiplication of the exact integer `x` (image sides passed
validation, so `x ≤ 4096` is exactly representable) by the double
`(n1, e1)`: the exact product `x * n1 * 2 ^ (e1 - 52)` rounded back to a
53-bit significand, nearest, ties to even. -/
def mulfl (x n1 : Nat) (e1 : Int) : Nat × Int :=
  let prod := x * n1
  let L : Int := (log2f 400 prod : Int)
  let n2 :=
    if 0 ≤ L - 52 then roundNE prod (2 ^ (L - 52).toNat)
    else prod * 2 ^ (52 - L).toNat
  (n2, L + e1 - 52)

/-- Python's `int()` applied to the positive double `(n, e)`: truncation
toward zero, i.e. the floor of `n * 2 ^ (e - 52)`. -/
def floorpos (n : Nat) (e : Int) : Nat :=
  if 0 ≤ e - 52 then n * 2 ^ (e - 52).toNat else n / 2 ^ (52 - e).toNat

/-- One side of the Python computation `int(side * scale_factor)`, where
`scale_factor` is the double `(n1, e1)`. -/
def resize_side (x n1 : Nat) (e1 : Int) : Nat :=
  floorpos (mulfl x n1 e1).1 (mulfl x n1 e1).2

/-- Rational value of the double `(n, e)`: `n * 2 ^ (e - 52)`. Used only
to state and prove the rounding-error bounds. -/
def fval (n : Nat) (e : Int) : ℚ :=
  (n : ℚ) * (2 : ℚ) ^ (e - 52)

/-- Embedding of `helpers.resize_image`: if both sides are within
`target_size` the image is returned as is; otherwise
`scale_factor = target_size / max(width, height)` is computed in binary64
(`fl64`), each side is multiplied by it in binary64 (`mulfl`) and
truncated by `int()` (`floorpos`), faithfully modelling the IEEE-754
double-precision arithmetic Python performs (round to nearest, ties to
even, at each of the two operations). -/
def resize_image (input_img : ImageDims) (target_size : Nat) : ImageDims :=
  if input_img.width ≤ target_size ∧ input_img.height ≤ target_size then
    input_img
  else
    { width := resize_side input_img.width
        (fl64 target_size (max input_img.width input_img.height)).1
        (fl64 target_size (max input_img.width input_img.height)).2,
      height := resize_side input_img.height
        (fl64 target_size (max input_img.width input_img.height)).1
        (fl64 target_size (max input_img.width input_img.height)).2 }

/-- Value of `settings.DATA_DIR` (an absolute path derived from the source
tree location; its exact text is irrelevant, only its use as a prefix). -/
def settings_DATA_DIR : String := "data"

/-- Value of `settings.API_BASE_URL` (env-driven, default shown in config). -/
def settings_API_BASE_URL : String := "http://localhost:8000"

/-- Embedding of `os.path.basename`: the part after the last slash
(computed on the character list so that it reduces definitionally). -/
def path_basename (p : String) : String :=
  String.mk ((p.data.reverse.takeWhile (fun c => c ≠ '/')).reverse)

/-- Embedding of `helpers.save_image`: the absolute path it returns,
`os.path.join(settings.DATA_DIR, relative_path)`. Whether the actual write
succeeds is an external outcome, threaded separately through `RunEnv`. -/
def save_image_path (relative_path : String) : String :=
  settings_DATA_DIR ++ "/" ++ relative_path

/-- Embedding of `helpers.get_image_url`. -/
def get_image_url (relative_path : String) : String :=
  settings_API_BASE_URL ++ "/data/outputs/" ++ path_basename relative_path

/-! Validation, from `app/utils/validators.py`. -/

/-- An uploaded image as seen by the endpoint: pixel dimensions plus the
PIL `format` attribute (`none` for images with no recorded format). -/
structure UploadImage where
  width : Nat
  height : Nat
  format : Option String
  deriving DecidableEq, Repr

/-- Embedding of `str(HTTPException)`: starlette renders it as
`f"{status_code}: {detail}"`. -/
def http_exception_str (status_code : Nat) (detail : String) : String :=
  toString status_code ++ ": " ++ detail

/-- Embedding of `validators.validate_image`: `Except.error (code, detail)`
models `raise HTTPException(status_code=code, detail=detail)`. -/
def validate_image (image : UploadImage) (min_size max_size : Nat) :
    Except (Nat × String) Unit :=
  if image.width < min_size ∨ image.height < min_size then
    Except.error (400, "Image dimensions too small. Minimum size is " ++
      toString min_size ++ "x" ++ toString min_size ++ " pixels.")
  else if image.width > max_size ∨ image.height > max_size then
    Except.error (400, "Image dimensions too large. Maximum size is " ++
      toString max_size ++ "x" ++ toString max_size ++ " pixels.")
  else if (match image.format with
           | some f => decide (f ∈ ["JPEG", "PNG", "JPG"])
           | none => false) = false then
    Except.error (400, "Unsupported image format. Please upload a JPEG or PNG image.")
  else
    Except.ok ()

/-! Task registry and pipeline, from `app/services/populated_room.py`. -/

/-- The status strings a stored task record can hold. -/
inductive Status where
  | pending
  | processing
  | completed
  | failed
  deriving DecidableEq, Repr

/-- The string stored in the record's `status` field. -/
def Status.str : Status → String
  | Status.pending => "pending"
  | Status.processing => "processing"
  | Status.completed => "completed"
  | Status.failed => "failed"

/-- One entry of `self.tasks`. The fields are exactly the dict keys the
service ever assigns; `none` models an absent key. -/
structure TaskRecord where
  status : Status
  request_id : String
  created_at : Nat
  output_path : Option String
  completed_at : Option Nat
  error : Option String
  deriving DecidableEq, Repr

/-- The arguments captured by the coroutine that
`asyncio.create_task(self._process_redesign(...))` schedules. -/
structure Job where
  task_id : Nat
  request_id : String
  style : String
  room_type : String
  color_palette : Option String
  input_width : Nat
  input_height : Nat
  deriving DecidableEq, Repr

/-- State of one `PopulatedRoomService` instance, plus the scheduler
bookkeeping needed to speak about the coroutines it has spawned:
`scheduled` holds coroutines created but not yet started, `running` holds
coroutines past their initial status write but not yet finished. -/
structure ServiceState where
  tasks : List (Nat × TaskRecord)
  scheduled : List Job
  running : List Job
  next_uuid : Nat
  now : Nat
  openai_client : Bool
  deriving DecidableEq, Repr

/-- Embedding of `PopulatedRoomService.__init__`: empty registry, no
coroutines; `openai_client` records whether the OpenAI constructor
succeeded. The id supply and clock start wherever the environment has them. -/
def PopulatedRoomService_init (client : Bool) (uuid0 t0 : Nat) : ServiceState :=
  { tasks := [], scheduled := [], running := [], next_uuid := uuid0,
    now := t0, openai_client := client }

/-- Embedding of `PopulatedRoomService.submit_redesign_task`: issue a fresh
id, store a `pending` record stamped with the current time, and schedule
the processing coroutine. Returns the task id and the new state. -/
def submit_redesign_task (s : ServiceState) (input_width input_height : Nat)
    (request_id style room_type : String) (color_palette : Option String) :
    Nat × ServiceState :=
  let task_id := s.next_uuid
  let record : TaskRecord :=
    { status := Status.pending, request_id := request_id, created_at := s.now,
      output_path := none, completed_at := none, error := none }
  let job : Job :=
    { task_id := task_id, request_id := request_id, style := style,
      room_type := room_type, color_palette := color_palette,
      input_width := input_width, input_height := input_height }
  (task_id,
    { s with tasks := aset s.tasks task_id record,
             scheduled := s.scheduled ++ [job],
             next_uuid := s.next_uuid + 1 })

/-- Embedding of `PopulatedRoomService.get_task_status`: `none` models the
`{'status': 'not_found'}` sentinel returned for unknown ids. -/
def get_task_status (s : ServiceState) (task_id : Nat) : Option TaskRecord :=
  alookup s.tasks task_id

/-- Outcome of the hosted GPT prompt-generation call, as the service code
distinguishes it: the API call raising, `json.loads` on the response
raising, or a parsed JSON object (an arbitrary string-keyed dict). -/
inductive GptOutcome where
  | apiError (msg : String)
  | badJson (msg : String)
  | ok (obj : List (String × String))
  deriving DecidableEq, Repr

/-- External-call outcomes for one run of `_process_redesign`: the Florence
caption (or the exception it raised internally), the GPT outcome, and
whether the Canny call, the Flux call and the image save raised. -/
structure RunEnv where
  florence : Except String String
  gpt : GptOutcome
  canny : Except String Unit
  flux : Except String Unit
  save : Except String Unit
  deriving Repr

/-- Embedding of `_generate_image_description`: every exception is caught
inside and replaced by the fixed default caption. -/
def generate_image_description (florence : Except String String) : String :=
  match florence with
  | Except.ok d => d
  | Except.error _ => "A room with furniture and decorations."

/-- The `default_prompts` dict built at the top of
`_generate_design_prompts`, with the f-strings expanded. -/
def default_prompts (style room_type : String) : List (String × String) :=
  [("clip", "A " ++ style ++ " " ++ room_type ++
      " with elegant furniture, balanced lighting, and harmonious colors."),
   ("t5", "Transform this " ++ room_type ++ " into a " ++ style ++
      " style space. Include furniture appropriate for a " ++ room_type ++
      ", with balanced composition, proper lighting, and a cohesive color scheme that matches the " ++
      style ++ " aesthetic.")]

/-- Embedding of `_generate_design_prompts`: without a client the defaults
are returned; a raised API call or a JSON parse failure is caught and also
yields the defaults; otherwise the parsed JSON object is returned verbatim. -/
def generate_design_prompts (client : Bool) (gpt : GptOutcome)
    (description style room_type : String) (color_palette : Option String) :
    List (String × String) :=
  if client = false then default_prompts style room_type
  else
    match gpt with
    | GptOutcome.apiError _ => default_prompts style room_type
    | GptOutcome.badJson _ => default_prompts style room_type
    | GptOutcome.ok obj => obj

/-- Embedding of the `try` body of `_process_redesign` (steps 1-6).
Returns the saved output path, or the textual description of the first
exception; a failing step short-circuits every later step. `prompts["clip"]`
and `prompts["t5"]` on a dict missing the key raise `KeyError`, whose
`str()` is the quoted key. -/
def runPipeline (job : Job) (client : Bool) (env : RunEnv) : Except String String :=
  let resized := resize_image { width := job.input_width, height := job.input_height } 1400
  let description := generate_image_description env.florence
  let prompts := generate_design_prompts client env.gpt description job.style
    job.room_type job.color_palette
  let _ := resized
  match env.canny with
  | Except.error e => Except.error e
  | Except.ok _ =>
    match alookup prompts "clip" with
    | none => Except.error "\x27clip\x27"
    | some _clip =>
      match alookup prompts "t5" with
      | none => Except.error "\x27t5\x27"
      | some _t5 =>
        match env.flux with
        | Except.error e => Except.error e
        | Except.ok _ =>
          match env.save with
          | Except.error e => Except.error e
          | Except.ok _ =>
            Except.ok (save_image_path ("outputs/" ++ job.request_id ++ "_output.png"))

/-- Embedding of the first line of `_process_redesign` (line 91): the
coroutine starts, writing `processing` into its record, and moves from the
scheduled set to the running set. The scheduled list is split as
`pre ++ job :: post` by the step that invokes this. -/
def startRun (s : ServiceState) (pre post : List Job) (job : Job) : ServiceState :=
  { s with
      tasks := aupdate s.tasks job.task_id
        (fun r => { r with status := Status.processing }),
      scheduled := pre ++ post,
      running := s.running ++ [job] }

/-- Embedding of the rest of `_process_redesign`: on success (lines
121-123) the record gets `completed`, the output path and the completion
timestamp; on any exception (lines 127-130) it gets `failed` and the
error text. The coroutine leaves the running set, split by the invoking
step as `pre ++ job :: post`. -/
def finishRun (s : ServiceState) (pre post : List Job) (job : Job) (env : RunEnv) :
    ServiceState :=
  match runPipeline job s.openai_client env with
  | Except.ok path =>
      { s with
          tasks := aupdate s.tasks job.task_id
            (fun r => { r with status := Status.completed,
                               output_path := some path,
                               completed_at := some s.now }),
          running := pre ++ post }
  | Except.error e =>
      { s with
          tasks := aupdate s.tasks job.task_id
            (fun r => { r with status := Status.failed, error := some e }),
          running := pre ++ post }

/-- One event on a service instance under the single-threaded cooperative
scheduler: the wall clock advancing, a submission, a scheduled coroutine
starting, or a started coroutine finishing with some external outcome. -/
inductive Step : ServiceState → ServiceState → Prop where
  | tick (s : ServiceState) (d : Nat) :
      Step s { s with now := s.now + d }
  | submit (s : ServiceState) (w h : Nat) (request_id style room_type : String)
      (cp : Option String) :
      Step s (submit_redesign_task s w h request_id style room_type cp).2
  | start (s : ServiceState) (pre post : List Job) (job : Job)
      (hsched : s.scheduled = pre ++ job :: post) :
      Step s (startRun s pre post job)
  | finish (s : ServiceState) (pre post : List Job) (job : Job) (env : RunEnv)
      (hrun : s.running = pre ++ job :: post) :
      Step s (finishRun s pre post job env)

/-- States a `PopulatedRoomService` instance can actually be in: freshly
constructed, or one event after a reachable state. -/
inductive Reachable : ServiceState → Prop where
  | init (client : Bool) (uuid0 t0 : Nat) :
      Reachable (PopulatedRoomService_init client uuid0 t0)
  | step {s s2 : ServiceState} : Reachable s → Step s s2 → Reachable s2

/-! HTTP layer, from `app/api/endpoints/tasks.py` and
`app/api/endpoints/redesign_populated.py` and the response models. -/

/-- Response model `TaskStatusResponse` from `response_models.py`. -/
structure TaskStatusResponse where
  task_id : Nat
  status : String
  output_url : Option String
  error : Option String
  created_at : Nat
  completed_at : Option Nat
  deriving DecidableEq, Repr

/-- Embedding of `task_info.get("output_url")` in `tasks.py` line 44: the
service only ever assigns the keys `status`, `request_id`, `created_at`,
`output_path`, `completed_at` and `error`, so the `output_url` key is
never present and `.get` returns `None`. -/
def record_get_output_url (_task_info : TaskRecord) : Option String := none

/-- Embedding of the response shaping in `tasks.py` lines 36-52: optional
keys are copied when present in the record; the `output_url` response field
is filled (from the absent `output_url` key) only when the record has an
`output_path` key. -/
def task_status_response (task_id : Nat) (task_info : TaskRecord) : TaskStatusResponse :=
  { task_id := task_id,
    status := task_info.status.str,
    created_at := task_info.created_at,
    output_url :=
      if task_info.output_path.isSome then record_get_output_url task_info else none,
    completed_at := task_info.completed_at,
    error := task_info.error }

/-- Embedding of `tasks.get_populated_room_service`: FastAPI calls the
dependency factory on every request, so every `GET /tasks/{task_id}`
operates on a NEWLY CONSTRUCTED `PopulatedRoomService`. -/
def tasks_get_populated_room_service (client : Bool) (uuid0 t0 : Nat) : ServiceState :=
  PopulatedRoomService_init client uuid0 t0

/-- Embedding of the `GET /api/{version}/tasks/{task_id}` endpoint,
including its per-request service construction. -/
def endpoint_get_task_status (client : Bool) (uuid0 t0 : Nat) (task_id : Nat) :
    Except (Nat × String) TaskStatusResponse :=
  let service := tasks_get_populated_room_service client uuid0 t0
  match get_task_status service task_id with
  | none =>
      Except.error (404, "Task with ID " ++ toString task_id ++ " not found")
  | some task_info => Except.ok (task_status_response task_id task_info)

/-- Embedding of the endpoint logic of `GET /tasks/{task_id}` applied to a
given service instance (the body of `get_task_status` in `tasks.py`,
abstracted over the injected service). -/
def get_task_status_route (service : ServiceState) (task_id : Nat) :
    Except (Nat × String) TaskStatusResponse :=
  match get_task_status service task_id with
  | none =>
      Except.error (404, "Task with ID " ++ toString task_id ++ " not found")
  | some task_info => Except.ok (task_status_response task_id task_info)

/-- Response model `ImageResponse` from `response_models.py`.
`processing_time` is elapsed wall time within the request; the model's
clock does not advance inside a single request, so it is 0 here. -/
structure ImageResponse where
  message : String
  output_url : String
  task_id : Option Nat
  processing_time : Nat
  deriving DecidableEq, Repr

/-- Embedding of `POST /api/{version}/redesign/populated/` applied to the
service instance its `Depends` factory supplies (itself freshly
constructed per request). `request_id` stands for the generated
`str(uuid.uuid4())`; `save_input` is the outcome of saving the uploaded
file. The endpoint's blanket `except Exception` catches the
`HTTPException(400, ...)` raised by `validate_image` and re-raises it as
a 500 whose detail wraps `str(e)`. -/
def redesign_populated_room (service : ServiceState) (file : UploadImage)
    (style room_type : String) (color_palette : Option String)
    (request_id : String) (save_input : Except String Unit) :
    Except (Nat × String) ImageResponse × ServiceState :=
  match validate_image file 256 4096 with
  | Except.error e =>
      (Except.error (500, "Error processing redesign request: " ++
        http_exception_str e.1 e.2), service)
  | Except.ok _ =>
    match save_input with
    | Except.error msg =>
        (Except.error (500, "Error processing redesign request: " ++ msg), service)
    | Except.ok _ =>
      let r := submit_redesign_task service file.width file.height request_id
        style room_type color_palette
      (Except.ok
        { message := "Room redesign processing started",
          output_url := get_image_url (request_id ++ "_output.png"),
          task_id := some r.1,
          processing_time := 0 },
       r.2)

/-! Model access layer, from `ml_models/model_manager.py`. -/

/-- The heavyweight resources the manager can construct. Each carries the
value of `load_count` at its construction, so two separately constructed
resources are distinguishable (object identity). -/
inductive Resource where
  | florence_model (stamp : Nat)
  | florence_processor (stamp : Nat)
  | canny_detector (stamp : Nat)
  | flux_pipeline (stamp : Nat)
  deriving DecidableEq, Repr

/-- State of a `ModelManager`: its three caches plus a counter of
constructions performed (used to stamp object identities). -/
structure ModelManager where
  models : List (String × Resource)
  processors : List (String × Resource)
  pipelines : List (String × Resource)
  load_count : Nat
  deriving DecidableEq, Repr

/-- Embedding of `ModelManager.__init__`. -/
def ModelManager_init : ModelManager :=
  { models := [], processors := [], pipelines := [], load_count := 0 }

/-- Embedding of `ModelManager.get_model`: return the cached model, or
construct, cache and return it for `"florence-2"`, or raise `ValueError`. -/
def get_model (m : ModelManager) (model_name : String) :
    Except String (Resource × ModelManager) :=
  match alookup m.models model_name with
  | some r => Except.ok (r, m)
  | none =>
    if model_name = "florence-2" then
      let r := Resource.florence_model m.load_count
      Except.ok (r, { m with models := aset m.models model_name r,
                             load_count := m.load_count + 1 })
    else
      Except.error ("Unknown model: " ++ model_name)

/-- Embedding of `ModelManager.get_processor`. -/
def get_processor (m : ModelManager) (processor_name : String) :
    Except String (Resource × ModelManager) :=
  match alookup m.processors processor_name with
  | some r => Except.ok (r, m)
  | none =>
    if processor_name = "florence-2" then
      let r := Resource.florence_processor m.load_count
      Except.ok (r, { m with processors := aset m.processors processor_name r,
                             load_count := m.load_count + 1 })
    else if processor_name = "canny" then
      let r := Resource.canny_detector m.load_count
      Except.ok (r, { m with processors := aset m.processors processor_name r,
                             load_count := m.load_count + 1 })
    else
      Except.error ("Unknown processor: " ++ processor_name)

/-- Embedding of `ModelManager.get_pipeline`. -/
def get_pipeline (m : ModelManager) (pipeline_name : String) :
    Except String (Resource × ModelManager) :=
  match alookup m.pipelines pipeline_name with
  | some r => Except.ok (r, m)
  | none =>
    if pipeline_name = "flux-canny" then
      let r := Resource.flux_pipeline m.load_count
      Except.ok (r, { m with pipelines := aset m.pipelines pipeline_name r,
                             load_count := m.load_count + 1 })
    else
      Except.error ("Unknown pipeline: " ++ pipeline_name)


/-! Invariants of the task registry, and concrete demonstration states. -/

/-- Task ids of a list of scheduled or running coroutines. -/
def JobIds (l : List Job) : List Nat :=
  l.map Job.task_id

/-- Forward order on task statuses:
`pending → processing → (completed | failed)`, reflexively. -/
def statusForward : Status → Status → Bool
  | Status.pending, _ => true
  | Status.processing, Status.pending => false
  | Status.processing, _ => true
  | Status.completed, Status.completed => true
  | Status.completed, _ => false
  | Status.failed, Status.failed => true
  | Status.failed, _ => false

/-- Invariant tying the registry to the scheduler bookkeeping: keys are
unique, below the id supply, scheduled coroutines sit on untouched
`pending` records, running coroutines on untouched `processing` records,
and no two live coroutines share a task id. -/
structure Inv (s : ServiceState) : Prop where
  keys_nodup : (s.tasks.map Prod.fst).Nodup
  ids_lt : ∀ p ∈ s.tasks, p.1 < s.next_uuid
  sched_pending : ∀ job ∈ s.scheduled, ∃ r, alookup s.tasks job.task_id = some r ∧
    r.status = Status.pending ∧ r.output_path = none ∧ r.completed_at = none ∧
    r.error = none
  run_processing : ∀ job ∈ s.running, ∃ r, alookup s.tasks job.task_id = some r ∧
    r.status = Status.processing ∧ r.output_path = none ∧ r.completed_at = none ∧
    r.error = none
  jobs_nodup : (JobIds s.scheduled ++ JobIds s.running).Nodup

/-- A freshly constructed service with a working OpenAI client. -/
def demoService0 : ServiceState :=
  PopulatedRoomService_init true 0 0

/-- The example submission of the spec: a 2000x1000 image, style
`modern`, room type `living room`. -/
def demoSubmit : Nat × ServiceState :=
  submit_redesign_task demoService0 2000 1000 "rid" "modern" "living room" none

/-- The coroutine scheduled by `demoSubmit`. -/
def demoJob : Job :=
  { task_id := 0, request_id := "rid", style := "modern",
    room_type := "living room", color_palette := none,
    input_width := 2000, input_height := 1000 }

/-- Service state after the demo submission. -/
def demoS1 : ServiceState := demoSubmit.2

/-- Service state once the demo coroutine has started. -/
def demoS2 : ServiceState := startRun demoS1 [] [] demoJob

/-- An environment in which every external call succeeds. -/
def envAllOk : RunEnv :=
  { florence := Except.ok "a furnished room", 
    gpt := GptOutcome.ok [("clip", "c"), ("t5", "t")],
    canny := Except.ok (), flux := Except.ok (), save := Except.ok () }

/-- An environment in which the Canny step raises an exception whose
textual description is the empty string (as `str(Exception())` is). -/
def envCannyEmptyMsg : RunEnv :=
  { florence := Except.ok "a furnished room",
    gpt := GptOutcome.ok [("clip", "c"), ("t5", "t")],
    canny := Except.error "", flux := Except.ok (), save := Except.ok () }

/-- Demo state after a fully successful pipeline run. -/
def demoS3ok : ServiceState := finishRun demoS2 [] [] demoJob envAllOk

/-- Demo state after a pipeline run that failed in the Canny step with an
empty exception message. -/
def demoS3fail : ServiceState := finishRun demoS2 [] [] demoJob envCannyEmptyMsg

/-- A 100x100 PNG upload, below the minimum dimension bound. -/
def demoSmallPng : UploadImage :=
  { width := 100, height := 100, format := some "PNG" }

/-- A valid 2000x1000 JPEG upload. -/
def demoJpeg : UploadImage :=
  { width := 2000, height := 1000, format := some "JPEG" }

/-! Theorems. First the association-list laws, then the registry
invariant, then one theorem per specification claim. -/

theorem alookup_aset_self {κ α : Type} [DecidableEq κ] (l : List (κ × α)) (k : κ) (v : α) :
    alookup (aset l k v) k = some v := by
  induction l with
  | nil => simp [aset, alookup]
  | cons p rest ih =>
    by_cases hk : p.1 = k
    · simp [aset, alookup, hk]
    · simp [aset, alookup, hk, ih]

theorem alookup_aset_ne {κ α : Type} [DecidableEq κ] (l : List (κ × α)) (k k2 : κ) (v : α)
    (h : k2 ≠ k) : alookup (aset l k v) k2 = alookup l k2 := by
  have hk2 : ¬k = k2 := fun he => h he.symm
  induction l with
  | nil => simp [aset, alookup, hk2]
  | cons p rest ih =>
    by_cases hp : p.1 = k
    · subst hp
      simp [aset, alookup, hk2]
    · simp only [aset, if_neg hp]
      by_cases hq : p.1 = k2
      · simp [alookup, hq]
      · simp [alookup, hq, ih]

theorem aset_eq_append {κ α : Type} [DecidableEq κ] (l : List (κ × α)) (k : κ) (v : α)
    (h : k ∉ l.map Prod.fst) : aset l k v = l ++ [(k, v)] := by
  induction l with
  | nil => simp [aset]
  | cons p rest ih =>
    simp only [List.map_cons, List.mem_cons] at h
    push_neg at h
    have hp : ¬p.1 = k := fun he => h.1 he.symm
    simp [aset, hp, ih h.2]

theorem alookup_append {κ α : Type} [DecidableEq κ] (l m : List (κ × α)) (k : κ) :
    alookup (l ++ m) k =
      match alookup l k with
      | some a => some a
      | none => alookup m k := by
  induction l with
  | nil => simp [alookup]
  | cons p rest ih =>
    by_cases hk : p.1 = k
    · simp [alookup, hk]
    · simp [alookup, hk, ih]

theorem alookup_aupdate_self {κ α : Type} [DecidableEq κ] (l : List (κ × α)) (k : κ)
    (f : α → α) : alookup (aupdate l k f) k = (alookup l k).map f := by
  induction l with
  | nil => simp [aupdate, alookup]
  | cons p rest ih =>
    obtain ⟨k0, a⟩ := p
    simp only [aupdate]
    by_cases hk : k0 = k
    · rw [if_pos hk]
      simp [alookup, hk]
    · rw [if_neg hk]
      simp [alookup, hk, ih]

theorem alookup_aupdate_ne {κ α : Type} [DecidableEq κ] (l : List (κ × α)) (k k2 : κ)
    (f : α → α) (h : k2 ≠ k) : alookup (aupdate l k f) k2 = alookup l k2 := by
  induction l with
  | nil => simp [aupdate, alookup]
  | cons p rest ih =>
    obtain ⟨k0, a⟩ := p
    simp only [aupdate]
    by_cases hp : k0 = k
    · rw [if_pos hp]
      have hq : ¬k0 = k2 := fun he => h (he ▸ hp)
      simp [alookup, hq, ih]
    · rw [if_neg hp]
      by_cases hq : k0 = k2
      · simp [alookup, hq]
      · simp [alookup, hq, ih]

theorem keys_aupdate {κ α : Type} [DecidableEq κ] (l : List (κ × α)) (k : κ) (f : α → α) :
    (aupdate l k f).map Prod.fst = l.map Prod.fst := by
  induction l with
  | nil => simp [aupdate]
  | cons p rest ih =>
    by_cases hk : p.1 = k
    · simpa [aupdate, hk] using ih
    · simpa [aupdate, hk] using ih

theorem mem_keys_of_alookup {κ α : Type} [DecidableEq κ] (l : List (κ × α)) (k : κ) (a : α)
    (h : alookup l k = some a) : k ∈ l.map Prod.fst := by
  induction l with
  | nil => simp [alookup] at h
  | cons p rest ih =>
    by_cases hk : p.1 = k
    · simp [hk]
    · simp only [alookup, if_neg hk] at h
      simp [ih h]

theorem alookup_eq_none {κ α : Type} [DecidableEq κ] (l : List (κ × α)) (k : κ)
    (h : k ∉ l.map Prod.fst) : alookup l k = none := by
  induction l with
  | nil => simp [alookup]
  | cons p rest ih =>
    simp only [List.map_cons, List.mem_cons] at h
    push_neg at h
    have hp : ¬p.1 = k := fun he => h.1 he.symm
    simp [alookup, hp, ih h.2]

/-! Image utilities, from `app/utils/helpers.py`. -/

theorem mem_fst_aupdate {κ α : Type} [DecidableEq κ] (l : List (κ × α)) (k : κ)
    (f : α → α) (p : κ × α) (hp : p ∈ aupdate l k f) : p.1 ∈ l.map Prod.fst := by
  have hkeys : (aupdate l k f).map Prod.fst = l.map Prod.fst := keys_aupdate l k f
  rw [← hkeys]
  exact List.mem_map_of_mem Prod.fst hp

theorem perm_pull_left {α : Type} (A C R : List α) (b : α) :
    List.Perm ((A ++ b :: C) ++ R) (b :: ((A ++ C) ++ R)) := by
  have h1 : List.Perm (A ++ b :: C) (b :: (A ++ C)) := List.perm_middle
  exact h1.append_right R

theorem perm_pull_right {α : Type} (S A C : List α) (b : α) :
    List.Perm (S ++ (A ++ b :: C)) (b :: (S ++ (A ++ C))) := by
  have h1 : List.Perm (A ++ b :: C) (b :: (A ++ C)) := List.perm_middle
  have h2 : List.Perm (S ++ (A ++ b :: C)) (S ++ b :: (A ++ C)) := h1.append_left S
  exact h2.trans List.perm_middle

theorem nodup_mid_left {α : Type} (A C R : List α) (b : α)
    (h : ((A ++ b :: C) ++ R).Nodup) :
    b ∉ A ∧ b ∉ C ∧ b ∉ R ∧ ((A ++ C) ++ (R ++ [b])).Nodup := by
  have h2 := (perm_pull_left A C R b).nodup h
  rw [List.nodup_cons] at h2
  obtain ⟨hb, hrest⟩ := h2
  simp only [List.mem_append] at hb
  push_neg at hb
  refine ⟨hb.1.1, hb.1.2, hb.2, ?_⟩
  have hbX : b ∉ (A ++ C) ++ R := by
    simp only [List.mem_append]
    push_neg
    exact ⟨⟨hb.1.1, hb.1.2⟩, hb.2⟩
  have hcons : (b :: ((A ++ C) ++ R)).Nodup := List.nodup_cons.mpr ⟨hbX, hrest⟩
  have p2 : List.Perm (b :: ((A ++ C) ++ R)) (((A ++ C) ++ R) ++ [b]) :=
    @List.perm_append_comm α [b] ((A ++ C) ++ R)
  have h3 := p2.nodup hcons
  rw [List.append_assoc] at h3
  exact h3

theorem nodup_mid_right {α : Type} (S A C : List α) (b : α)
    (h : (S ++ (A ++ b :: C)).Nodup) :
    b ∉ S ∧ b ∉ A ∧ b ∉ C ∧ (S ++ (A ++ C)).Nodup := by
  have h2 := (perm_pull_right S A C b).nodup h
  rw [List.nodup_cons] at h2
  obtain ⟨hb, hrest⟩ := h2
  simp only [List.mem_append] at hb
  push_neg at hb
  exact ⟨hb.1, hb.2.1, hb.2.2, hrest⟩

theorem Inv_init (client : Bool) (u t : Nat) :
    Inv (PopulatedRoomService_init client u t) := by
  constructor <;> simp [PopulatedRoomService_init, JobIds]

theorem Inv_submit (s : ServiceState) (hInv : Inv s) (w h : Nat)
    (rid style room : String) (cp : Option String) :
    Inv (submit_redesign_task s w h rid style room cp).2 := by
  have hid : s.next_uuid ∉ s.tasks.map Prod.fst := by
    intro hmem
    obtain ⟨p, hp, hfst⟩ := List.mem_map.mp hmem
    have := hInv.ids_lt p hp
    omega
  have hjoblt : ∀ a ∈ JobIds s.scheduled ++ JobIds s.running, a < s.next_uuid := by
    intro a ha
    rcases List.mem_append.mp ha with hsa | hra
    · obtain ⟨j, hj, hja⟩ := List.mem_map.mp hsa
      obtain ⟨r, hr, _⟩ := hInv.sched_pending j hj
      have hk := mem_keys_of_alookup _ _ _ hr
      obtain ⟨q, hq, hqf⟩ := List.mem_map.mp hk
      have := hInv.ids_lt q hq
      omega
    · obtain ⟨j, hj, hja⟩ := List.mem_map.mp hra
      obtain ⟨r, hr, _⟩ := hInv.run_processing j hj
      have hk := mem_keys_of_alookup _ _ _ hr
      obtain ⟨q, hq, hqf⟩ := List.mem_map.mp hk
      have := hInv.ids_lt q hq
      omega
  simp only [submit_redesign_task]
  refine ⟨?_, ?_, ?_, ?_, ?_⟩
  · -- keys unique after appending the fresh id
    rw [aset_eq_append _ _ _ hid, List.map_append]
    simp only [List.map_cons, List.map_nil]
    rw [List.nodup_append]
    refine ⟨hInv.keys_nodup, List.nodup_singleton _, ?_⟩
    intro a ha hb
    simp only [List.mem_singleton] at hb
    rw [hb] at ha
    exact hid ha
  · -- all keys stay below the bumped id supply
    intro p hp
    rw [aset_eq_append _ _ _ hid] at hp
    show p.1 < s.next_uuid + 1
    rcases List.mem_append.mp hp with h1 | h2
    · have := hInv.ids_lt p h1
      omega
    · simp only [List.mem_singleton] at h2
      rw [h2]
      omega
  · -- scheduled coroutines still sit on pending records
    intro job hjob
    rcases List.mem_append.mp hjob with hold | hnew
    · obtain ⟨r, hr, hprops⟩ := hInv.sched_pending job hold
      refine ⟨r, ?_, hprops⟩
      rw [aset_eq_append _ _ _ hid, alookup_append, hr]
    · simp only [List.mem_singleton] at hnew
      rw [hnew]
      refine ⟨{ status := Status.pending, request_id := rid, created_at := s.now,
                output_path := none, completed_at := none, error := none },
        ?_, rfl, rfl, rfl, rfl⟩
      rw [aset_eq_append _ _ _ hid, alookup_append, alookup_eq_none _ _ hid]
      simp [alookup]
  · -- running coroutines untouched
    intro job hjob
    obtain ⟨r, hr, hprops⟩ := hInv.run_processing job hjob
    refine ⟨r, ?_, hprops⟩
    rw [aset_eq_append _ _ _ hid, alookup_append, hr]
  · -- live coroutine ids stay distinct
    have hgoal : (JobIds s.scheduled ++ s.next_uuid :: JobIds s.running).Nodup := by
      refine List.perm_middle.symm.nodup (List.nodup_cons.mpr ⟨?_, hInv.jobs_nodup⟩)
      intro hmem
      have := hjoblt _ hmem
      omega
    have hdistr : JobIds (s.scheduled ++
        [{ task_id := s.next_uuid, request_id := rid, style := style,
           room_type := room, color_palette := cp,
           input_width := w, input_height := h }]) =
        JobIds s.scheduled ++ [s.next_uuid] := by
      simp [JobIds]
    rw [hdistr, List.append_assoc]
    exact hgoal

theorem Inv_start (s : ServiceState) (hInv : Inv s) (pre post : List Job) (job : Job)
    (hsched : s.scheduled = pre ++ job :: post) : Inv (startRun s pre post job) := by
  have hjobs := hInv.jobs_nodup
  rw [hsched] at hjobs
  have hdistr : JobIds (pre ++ job :: post) =
      JobIds pre ++ job.task_id :: JobIds post := by
    simp [JobIds]
  rw [hdistr] at hjobs
  obtain ⟨hbA, hbC, hbR, hnodup2⟩ := nodup_mid_left _ _ _ _ hjobs
  have hjob_mem : job ∈ s.scheduled := by
    rw [hsched]
    simp
  obtain ⟨r0, hr0, hst0, hop0, hca0, he0⟩ := hInv.sched_pending job hjob_mem
  refine ⟨?_, ?_, ?_, ?_, ?_⟩
  · simpa [startRun, keys_aupdate] using hInv.keys_nodup
  · intro p hp
    simp only [startRun] at hp
    have hk := mem_fst_aupdate _ _ _ _ hp
    obtain ⟨q, hq, hqf⟩ := List.mem_map.mp hk
    have := hInv.ids_lt q hq
    simp only [startRun]
    omega
  · intro j hj
    simp only [startRun] at hj
    have hj2 : j ∈ s.scheduled := by
      rw [hsched]
      rcases List.mem_append.mp hj with h1 | h2
      · simp [h1]
      · simp [h2]
    obtain ⟨r, hr, hprops⟩ := hInv.sched_pending j hj2
    have hne : j.task_id ≠ job.task_id := by
      intro he
      rcases List.mem_append.mp hj with h1 | h2
      · exact hbA (he ▸ List.mem_map_of_mem Job.task_id h1)
      · exact hbC (he ▸ List.mem_map_of_mem Job.task_id h2)
    refine ⟨r, ?_, hprops⟩
    simp only [startRun]
    rw [alookup_aupdate_ne _ _ _ _ hne]
    exact hr
  · intro j hj
    simp only [startRun] at hj
    rcases List.mem_append.mp hj with hold | hnew
    · obtain ⟨r, hr, hprops⟩ := hInv.run_processing j hold
      have hne : j.task_id ≠ job.task_id := by
        intro he
        exact hbR (he ▸ List.mem_map_of_mem Job.task_id hold)
      refine ⟨r, ?_, hprops⟩
      simp only [startRun]
      rw [alookup_aupdate_ne _ _ _ _ hne]
      exact hr
    · simp only [List.mem_singleton] at hnew
      rw [hnew]
      refine ⟨{ r0 with status := Status.processing }, ?_, rfl, hop0, hca0, he0⟩
      simp only [startRun]
      rw [alookup_aupdate_self, hr0]
      rfl
  · simp only [startRun, JobIds, List.map_append, List.map_cons, List.map_nil]
    simpa [JobIds] using hnodup2

theorem Inv_finish (s : ServiceState) (hInv : Inv s) (pre post : List Job) (job : Job)
    (env : RunEnv) (hrun : s.running = pre ++ job :: post) :
    Inv (finishRun s pre post job env) := by
  have hjobs := hInv.jobs_nodup
  rw [hrun] at hjobs
  have hdistr : JobIds (pre ++ job :: post) =
      JobIds pre ++ job.task_id :: JobIds post := by
    simp [JobIds]
  rw [hdistr] at hjobs
  obtain ⟨hbS, hbA, hbC, hnodup2⟩ := nodup_mid_right _ _ _ _ hjobs
  have hjob_mem : job ∈ s.running := by
    rw [hrun]
    simp
  obtain ⟨r0, hr0, hst0, hop0, hca0, he0⟩ := hInv.run_processing job hjob_mem
  have htogether : ∀ (f : TaskRecord → TaskRecord),
      Inv { s with tasks := aupdate s.tasks job.task_id f, running := pre ++ post } := by
    intro f
    refine ⟨?_, ?_, ?_, ?_, ?_⟩
    · simpa [keys_aupdate] using hInv.keys_nodup
    · intro p hp
      simp only at hp
      have hk := mem_fst_aupdate _ _ _ _ hp
      obtain ⟨q, hq, hqf⟩ := List.mem_map.mp hk
      have := hInv.ids_lt q hq
      simp only
      omega
    · intro j hj
      simp only at hj
      obtain ⟨r, hr, hprops⟩ := hInv.sched_pending j hj
      have hne : j.task_id ≠ job.task_id := by
        intro he
        exact hbS (he ▸ List.mem_map_of_mem Job.task_id hj)
      refine ⟨r, ?_, hprops⟩
      simp only
      rw [alookup_aupdate_ne _ _ _ _ hne]
      exact hr
    · intro j hj
      simp only at hj
      have hj2 : j ∈ s.running := by
        rw [hrun]
        rcases List.mem_append.mp hj with h1 | h2
        · simp [h1]
        · simp [h2]
      obtain ⟨r, hr, hprops⟩ := hInv.run_processing j hj2
      have hne : j.task_id ≠ job.task_id := by
        intro he
        rcases List.mem_append.mp hj with h1 | h2
        · exact hbA (he ▸ List.mem_map_of_mem Job.task_id h1)
        · exact hbC (he ▸ List.mem_map_of_mem Job.task_id h2)
      refine ⟨r, ?_, hprops⟩
      simp only
      rw [alookup_aupdate_ne _ _ _ _ hne]
      exact hr
    · simp only [JobIds, List.map_append]
      simpa [JobIds] using hnodup2
  rcases hpipe : runPipeline job s.openai_client env with e | path
  · simpa [finishRun, hpipe] using htogether
      (fun r => { r with status := Status.failed, error := some e })
  · simpa [finishRun, hpipe] using htogether
      (fun r => { r with status := Status.completed, output_path := some path,
                         completed_at := some s.now })

theorem Inv_step {s s2 : ServiceState} (hInv : Inv s) (hstep : Step s s2) : Inv s2 := by
  cases hstep with
  | tick d =>
    exact ⟨hInv.keys_nodup, hInv.ids_lt, hInv.sched_pending, hInv.run_processing,
      hInv.jobs_nodup⟩
  | submit w h rid style room cp => exact Inv_submit s hInv w h rid style room cp
  | start pre post job hsched => exact Inv_start s hInv pre post job hsched
  | finish pre post job env hrun => exact Inv_finish s hInv pre post job env hrun

theorem Reachable_inv {s : ServiceState} (h : Reachable s) : Inv s := by
  induction h with
  | init client u t => exact Inv_init client u t
  | step hs hstep ih => exact Inv_step ih hstep

theorem statusForward_refl (st : Status) : statusForward st st = true := by
  cases st <;> rfl

theorem next_uuid_fresh {s : ServiceState} (hInv : Inv s) :
    s.next_uuid ∉ s.tasks.map Prod.fst := by
  intro hmem
  obtain ⟨p, hp, hf⟩ := List.mem_map.mp hmem
  have := hInv.ids_lt p hp
  omega

theorem step_status_forward {s s2 : ServiceState} (hInv : Inv s) (hstep : Step s s2)
    (id : Nat) (r : TaskRecord) (hl : alookup s.tasks id = some r) :
    ∃ r2, alookup s2.tasks id = some r2 ∧ statusForward r.status r2.status = true ∧
      r2.request_id = r.request_id ∧ r2.created_at = r.created_at := by
  cases hstep with
  | tick d => exact ⟨r, hl, statusForward_refl r.status, rfl, rfl⟩
  | submit w h rid style room cp =>
    have hid : s.next_uuid ∉ s.tasks.map Prod.fst := next_uuid_fresh hInv
    refine ⟨r, ?_, statusForward_refl r.status, rfl, rfl⟩
    simp only [submit_redesign_task]
    rw [aset_eq_append _ _ _ hid, alookup_append, hl]
  | start pre post job hsched =>
    by_cases hcase : id = job.task_id
    · subst hcase
      have hjob : job ∈ s.scheduled := by
        rw [hsched]
        simp
      obtain ⟨r0, hr0, hst0, _, _, _⟩ := hInv.sched_pending job hjob
      rw [hl] at hr0
      have hrr : r = r0 := Option.some.inj hr0
      have hrp : r.status = Status.pending := by
        rw [hrr]
        exact hst0
      refine ⟨{ r with status := Status.processing }, ?_, ?_, rfl, rfl⟩
      · simp only [startRun]
        rw [alookup_aupdate_self, hl]
        rfl
      · simp [hrp, statusForward]
    · refine ⟨r, ?_, statusForward_refl r.status, rfl, rfl⟩
      simp only [startRun]
      rw [alookup_aupdate_ne _ _ _ _ hcase]
      exact hl
  | finish pre post job env hrun =>
    by_cases hcase : id = job.task_id
    · subst hcase
      have hjob : job ∈ s.running := by
        rw [hrun]
        simp
      obtain ⟨r0, hr0, hst0, _, _, _⟩ := hInv.run_processing job hjob
      rw [hl] at hr0
      have hrr : r = r0 := Option.some.inj hr0
      have hrp : r.status = Status.processing := by
        rw [hrr]
        exact hst0
      rcases hpipe : runPipeline job s.openai_client env with e | path
      · refine ⟨{ r with status := Status.failed, error := some e }, ?_, ?_, rfl, rfl⟩
        · simp only [finishRun, hpipe]
          rw [alookup_aupdate_self, hl]
          rfl
        · simp [hrp, statusForward]
      · refine ⟨{ r with status := Status.completed, output_path := some path, completed_at := some s.now }, ?_, ?_, rfl, rfl⟩
        · simp only [finishRun, hpipe]
          rw [alookup_aupdate_self, hl]
          rfl
        · simp [hrp, statusForward]
    · refine ⟨r, ?_, statusForward_refl r.status, rfl, rfl⟩
      rcases hpipe : runPipeline job s.openai_client env with e | path
      · simp only [finishRun, hpipe]
        rw [alookup_aupdate_ne _ _ _ _ hcase]
        exact hl
      · simp only [finishRun, hpipe]
        rw [alookup_aupdate_ne _ _ _ _ hcase]
        exact hl

/-- C1: for every id issued by `submit_redesign_task` the registry maps it
to exactly one record (its key list stays duplicate-free across every
step), and no step of the service moves a record's status backward or out
of the order pending → processing → (completed | failed). -/
theorem C1_registry_unique_status_monotone (s s2 : ServiceState) (hs : Reachable s)
    (hstep : Step s s2) (id : Nat) (r : TaskRecord)
    (hl : alookup s.tasks id = some r) :
    (s.tasks.map Prod.fst).Nodup ∧ (s2.tasks.map Prod.fst).Nodup ∧
    ∃ r2, alookup s2.tasks id = some r2 ∧ statusForward r.status r2.status = true := by
  have hInv := Reachable_inv hs
  have hInv2 := Inv_step hInv hstep
  obtain ⟨r2, hl2, hf, _, _⟩ := step_status_forward hInv hstep id r hl
  exact ⟨hInv.keys_nodup, hInv2.keys_nodup, r2, hl2, hf⟩

/-- Witness for C1: the demo submission followed by the coroutine start. -/
theorem C1_registry_unique_status_monotone_witness :
    (demoS1.tasks.map Prod.fst).Nodup ∧ (demoS2.tasks.map Prod.fst).Nodup ∧
    ∃ r2, alookup demoS2.tasks 0 = some r2 ∧
      statusForward Status.pending r2.status = true :=
  C1_registry_unique_status_monotone demoS1 demoS2
    (Reachable.step (Reachable.init true 0 0)
      (Step.submit demoService0 2000 1000 "rid" "modern" "living room" none))
    (Step.start demoS1 [] [] demoJob rfl) 0
    { status := Status.pending, request_id := "rid", created_at := 0,
      output_path := none, completed_at := none, error := none } rfl

/-- C5: every submission returns an id not previously present in the
registry, and an immediate status read on that id reports `pending` (hence
pending-or-processing and never completed/failed). -/
theorem C5_submit_fresh_and_pending (s : ServiceState) (hs : Reachable s)
    (w h : Nat) (rid style room : String) (cp : Option String) :
    (submit_redesign_task s w h rid style room cp).1 ∉ s.tasks.map Prod.fst ∧
    ∃ rec, get_task_status (submit_redesign_task s w h rid style room cp).2
        (submit_redesign_task s w h rid style room cp).1 = some rec ∧
      (rec.status = Status.pending ∨ rec.status = Status.processing) ∧
      rec.status ≠ Status.completed ∧ rec.status ≠ Status.failed := by
  have hInv := Reachable_inv hs
  have hid := next_uuid_fresh hInv
  constructor
  · simpa [submit_redesign_task] using hid
  · refine ⟨{ status := Status.pending, request_id := rid, created_at := s.now, output_path := none, completed_at := none, error := none }, ?_, Or.inl rfl, by simp, by simp⟩
    simp [get_task_status, submit_redesign_task, alookup_aset_self]

/-- Witness for C5 at the freshly constructed demo service. -/
theorem C5_submit_fresh_and_pending_witness :
    (submit_redesign_task demoService0 2000 1000 "rid" "modern" "living room" none).1 ∉
      demoService0.tasks.map Prod.fst ∧
    ∃ rec, get_task_status
        (submit_redesign_task demoService0 2000 1000 "rid" "modern" "living room" none).2
        (submit_redesign_task demoService0 2000 1000 "rid" "modern" "living room" none).1 =
        some rec ∧
      (rec.status = Status.pending ∨ rec.status = Status.processing) ∧
      rec.status ≠ Status.completed ∧ rec.status ≠ Status.failed :=
  C5_submit_fresh_and_pending demoService0 (Reachable.init true 0 0) 2000 1000
    "rid" "modern" "living room" none

/-- C2: refutation at the code level. Because the `tasks` endpoint's
`Depends` factory constructs a NEW `PopulatedRoomService` (with an empty
registry) on every request, `GET /tasks/{task_id}` answers 404 for every
id — including an id just issued by a POST, which the POST stored only in
its own per-request service instance. -/
theorem C2_get_after_post_is_404 :
    (∀ (client : Bool) (uuid0 t0 task_id : Nat),
      endpoint_get_task_status client uuid0 t0 task_id =
        Except.error (404, "Task with ID " ++ toString task_id ++ " not found")) ∧
    (redesign_populated_room demoService0 demoJpeg "modern" "living room" none "rid"
        (Except.ok ())).1 =
      Except.ok { message := "Room redesign processing started",
                  output_url := settings_API_BASE_URL ++ "/data/outputs/rid_output.png",
                  task_id := some 0, processing_time := 0 } ∧
    alookup (redesign_populated_room demoService0 demoJpeg "modern" "living room" none
        "rid" (Except.ok ())).2.tasks 0 =
      some { status := Status.pending, request_id := "rid", created_at := 0,
             output_path := none, completed_at := none, error := none } := by
  refine ⟨?_, ?_, ?_⟩
  · intro client u t tid
    rfl
  · rfl
  · rfl

/-- C3: evaluation of a fully successful run. The record does end
`completed` with `completed_at ≥ created_at` and a stored output path, but
the status endpoint's response carries `output_url = none`, because
`tasks.py` copies the never-assigned `output_url` dict key instead of the
stored `output_path` — so no resolvable output URL is reported. -/
theorem C3_completed_task_reports_no_url :
    alookup demoS3ok.tasks 0 =
      some { status := Status.completed, request_id := "rid", created_at := 0,
             output_path := some (settings_DATA_DIR ++ "/outputs/rid_output.png"),
             completed_at := some 0, error := none } ∧
    (task_status_response 0
      { status := Status.completed, request_id := "rid", created_at := 0,
        output_path := some (settings_DATA_DIR ++ "/outputs/rid_output.png"),
        completed_at := some 0, error := none }).output_url = none ∧
    (task_status_response 0
      { status := Status.completed, request_id := "rid", created_at := 0,
        output_path := some (settings_DATA_DIR ++ "/outputs/rid_output.png"),
        completed_at := some 0, error := none }).status = "completed" := by
  refine ⟨?_, rfl, rfl⟩
  rfl

/-- C4 counterexample: a pipeline step can raise an exception whose
textual description is empty (`str(Exception())` is `""`), and then the
failed record's error description is the empty string — refuting the
claim's "non-empty error description". -/
theorem C4_counterexample_empty_error :
    ∃ r, alookup demoS3fail.tasks 0 = some r ∧ r.status = Status.failed ∧
      r.error = some "" ∧ ¬∃ msg, r.error = some msg ∧ 0 < msg.length := by
  refine ⟨{ status := Status.failed, request_id := "rid", created_at := 0, output_path := none, completed_at := none, error := some "" }, rfl, rfl, rfl, ?_⟩
  rintro ⟨msg, hm, hlen⟩
  have hmsg : "" = msg := Option.some.inj hm
  rw [← hmsg] at hlen
  exact absurd hlen (by decide)

/-- C4 (amended): if any pipeline step raises, the record ends `failed`
with exactly the raised error's textual description (which is empty only
when that description is empty), no output path and no completion
timestamp; and a failure at the Canny step short-circuits, making the
outcome independent of the Flux and save steps. -/
theorem C4_failed_task_aborts (s : ServiceState) (hs : Reachable s)
    (pre post : List Job) (job : Job) (env : RunEnv) (e msg : String)
    (fl : Except String String) (g : GptOutcome) (fx sv : Except String Unit)
    (hrun : s.running = pre ++ job :: post)
    (herr : runPipeline job s.openai_client env = Except.error e) :
    (∃ r2, alookup (finishRun s pre post job env).tasks job.task_id = some r2 ∧
      r2.status = Status.failed ∧ r2.error = some e ∧ r2.output_path = none ∧
      r2.completed_at = none) ∧
    runPipeline job s.openai_client
      { florence := fl, gpt := g, canny := Except.error msg, flux := fx, save := sv } =
      Except.error msg := by
  have hInv := Reachable_inv hs
  have hjob : job ∈ s.running := by
    rw [hrun]
    simp
  obtain ⟨r0, hr0, hst0, hop0, hca0, he0⟩ := hInv.run_processing job hjob
  constructor
  · refine ⟨{ r0 with status := Status.failed, error := some e }, ?_, rfl, rfl, hop0, hca0⟩
    simp only [finishRun, herr]
    rw [alookup_aupdate_self, hr0]
    rfl
  · simp [runPipeline]

/-- Witness for the amended C4 at the demo run failing in the Canny step. -/
theorem C4_failed_task_aborts_witness :
    (∃ r2, alookup (finishRun demoS2 [] [] demoJob envCannyEmptyMsg).tasks 0 = some r2 ∧
      r2.status = Status.failed ∧ r2.error = some "" ∧ r2.output_path = none ∧
      r2.completed_at = none) ∧
    runPipeline demoJob demoS2.openai_client
      { florence := Except.ok "d", gpt := GptOutcome.ok [], canny := Except.error "x", flux := Except.ok (), save := Except.ok () } =
      Except.error "x" :=
  C4_failed_task_aborts demoS2
    (Reachable.step
      (Reachable.step (Reachable.init true 0 0)
        (Step.submit demoService0 2000 1000 "rid" "modern" "living room" none))
      (Step.start demoS1 [] [] demoJob rfl))
    [] [] demoJob envCannyEmptyMsg "" "x" (Except.ok "d") (GptOutcome.ok [])
    (Except.ok ()) (Except.ok ()) rfl rfl


theorem roundNE_err (a b : Nat) (hb : 0 < b) :
    |(roundNE a b : ℚ) - (a : ℚ) / (b : ℚ)| ≤ 1 / 2 := by
  have hb0 : (0 : ℚ) < (b : ℚ) := by exact_mod_cast hb
  have hdm : (b : ℚ) * ((a / b : ℕ) : ℚ) + ((a % b : ℕ) : ℚ) = (a : ℚ) := by
    exact_mod_cast Nat.div_add_mod a b
  have hrb : ((a % b : ℕ) : ℚ) < (b : ℚ) := by exact_mod_cast Nat.mod_lt a hb
  have hr0 : (0 : ℚ) ≤ ((a % b : ℕ) : ℚ) := Nat.cast_nonneg _
  have hx : (a : ℚ) / b = ((a / b : ℕ) : ℚ) + ((a % b : ℕ) : ℚ) / b := by
    field_simp
    linarith [hdm]
  rw [hx]
  simp only [roundNE]
  split
  · next h1 =>
    have h1q : 2 * ((a % b : ℕ) : ℚ) < (b : ℚ) := by exact_mod_cast h1
    have hd2 : ((a % b : ℕ) : ℚ) / b ≤ 1 / 2 := by
      rw [div_le_iff hb0]
      linarith
    have hd0 : (0 : ℚ) ≤ ((a % b : ℕ) : ℚ) / b := div_nonneg hr0 (le_of_lt hb0)
    rw [abs_le]
    constructor <;> linarith
  · next h1 =>
    split
    · next h2 =>
      have h2q : (b : ℚ) < 2 * ((a % b : ℕ) : ℚ) := by exact_mod_cast h2
      have hd2 : 1 / 2 ≤ ((a % b : ℕ) : ℚ) / b := by
        rw [le_div_iff hb0]
        linarith
      have hd1 : ((a % b : ℕ) : ℚ) / b < 1 := by
        rw [div_lt_one hb0]
        exact hrb
      push_cast
      rw [abs_le]
      constructor <;> linarith
    · next h2 =>
      have htie : 2 * (a % b) = b := by omega
      have hd2 : ((a % b : ℕ) : ℚ) / b = 1 / 2 := by
        rw [div_eq_iff (ne_of_gt hb0)]
        have : 2 * ((a % b : ℕ) : ℚ) = (b : ℚ) := by exact_mod_cast htie
        linarith
      split
      · next h3 =>
        push_cast
        rw [abs_le]
        constructor <;> linarith
      · next h3 =>
        push_cast
        rw [abs_le]
        constructor <;> linarith

theorem log2f_le (fuel n : Nat) (hn : 0 < n) (hlt : n < 2 ^ fuel) :
    2 ^ log2f fuel n ≤ n := by
  induction fuel generalizing n with
  | zero =>
    simp only [pow_zero] at hlt
    omega
  | succ f ih =>
    simp only [log2f]
    split
    · next h2 =>
      have hp : (2 : ℕ) ^ (f + 1) = 2 * 2 ^ f := by ring
      rw [hp] at hlt
      have h1 : 0 < n / 2 := by omega
      have h2b : n / 2 < 2 ^ f := by omega
      have hrec := ih (n / 2) h1 h2b
      have hstep : (2 : ℕ) ^ (log2f f (n / 2) + 1) = 2 * 2 ^ log2f f (n / 2) := by ring
      rw [hstep]
      omega
    · next h2 =>
      simp only [pow_zero]
      omega

theorem roundNE_le (a b : Nat) : roundNE a b ≤ a / b + 1 := by
  simp only [roundNE]
  split
  · exact Nat.le_succ _
  · split
    · exact Nat.le_refl _
    · split
      · exact Nat.le_succ _
      · exact Nat.le_refl _

theorem fl64_sig_le (a b : Nat) (hb : 0 < b) :
    (fl64 a b).1 ≤ a * 2 ^ 252 + 1 := by
  simp only [fl64]
  split
  · next hcase =>
    refine le_trans (roundNE_le _ _) ?_
    have hd := Nat.div_le_self
      (a * 2 ^ (52 - ((log2f 400 (a * 2 ^ 200 / b) : Int) - 200)).toNat) b
    have hk : (52 - ((log2f 400 (a * 2 ^ 200 / b) : Int) - 200)).toNat ≤ 252 := by omega
    have h2 : (2 : ℕ) ^ (52 - ((log2f 400 (a * 2 ^ 200 / b) : Int) - 200)).toNat ≤ 2 ^ 252 :=
      Nat.pow_le_pow_right (by norm_num) hk
    have h3 := Nat.mul_le_mul_left a h2
    linarith [hd, h3]
  · next hcase =>
    refine le_trans (roundNE_le _ _) ?_
    have hd := Nat.div_le_self a
      (b * 2 ^ (((log2f 400 (a * 2 ^ 200 / b) : Int) - 200) - 52).toNat)
    have h4 : a ≤ a * 2 ^ 252 :=
      Nat.le_mul_of_pos_right a (pow_pos (by norm_num) 252)
    linarith [hd, h4]

theorem round_scaled_err (x : ℚ) (n : Nat) (e : Int)
    (hkey : (2 : ℚ) ^ e ≤ x)
    (hn : |(n : ℚ) - x * (2 : ℚ) ^ (52 - e)| ≤ 1 / 2) :
    |fval n e - x| ≤ x / 2 ^ 53 := by
  have hz : (2 : ℚ) ≠ 0 := by norm_num
  have hcancel : (2 : ℚ) ^ (52 - e) * (2 : ℚ) ^ (e - 52) = 1 := by
    rw [← zpow_add₀ hz]
    rw [show (52 - e) + (e - 52) = 0 by ring, zpow_zero]
  have hdiff : fval n e - x = ((n : ℚ) - x * (2 : ℚ) ^ (52 - e)) * (2 : ℚ) ^ (e - 52) := by
    simp only [fval]
    calc (n : ℚ) * 2 ^ (e - 52) - x
        = (n : ℚ) * 2 ^ (e - 52) - x * ((2 : ℚ) ^ (52 - e) * (2 : ℚ) ^ (e - 52)) := by
          rw [hcancel, mul_one]
      _ = ((n : ℚ) - x * (2 : ℚ) ^ (52 - e)) * (2 : ℚ) ^ (e - 52) := by ring
  rw [hdiff, abs_mul]
  have hpos : (0 : ℚ) < (2 : ℚ) ^ (e - 52) := zpow_pos (by norm_num) _
  rw [abs_of_pos hpos]
  refine le_trans (mul_le_mul_of_nonneg_right hn (le_of_lt hpos)) ?_
  have hhalf : (1 / 2 : ℚ) = (2 : ℚ) ^ (-1 : ℤ) := by
    rw [zpow_neg, zpow_one]
    norm_num
  have hstep : (1 / 2 : ℚ) * (2 : ℚ) ^ (e - 52) = (2 : ℚ) ^ (e - 53) := by
    rw [hhalf, ← zpow_add₀ hz]
    congr 1
    ring
  rw [hstep, le_div_iff (by positivity : (0 : ℚ) < 2 ^ 53)]
  calc (2 : ℚ) ^ (e - 53) * 2 ^ 53
      = (2 : ℚ) ^ (e - 53) * (2 : ℚ) ^ ((53 : ℕ) : ℤ) := by rw [zpow_natCast]
    _ = (2 : ℚ) ^ e := by
        rw [← zpow_add₀ hz]
        congr 1
        push_cast
        ring
    _ ≤ x := hkey

theorem fl64_err (a b : Nat) (ha : 0 < a) (hb : 0 < b)
    (hab : b ≤ a * 2 ^ 100) (hba : a ≤ b * 2 ^ 100) :
    |fval (fl64 a b).1 (fl64 a b).2 - (a : ℚ) / b| ≤ ((a : ℚ) / b) / 2 ^ 53 := by
  have hz : (2 : ℚ) ≠ 0 := by norm_num
  have hb0 : (0 : ℚ) < (b : ℚ) := by exact_mod_cast hb
  have hN1 : 2 ^ 100 ≤ a * 2 ^ 200 / b := by
    apply (Nat.le_div_iff_mul_le hb).mpr
    calc 2 ^ 100 * b = b * 2 ^ 100 := by ring
      _ ≤ (a * 2 ^ 100) * 2 ^ 100 := Nat.mul_le_mul_right _ hab
      _ = a * 2 ^ 200 := by ring
  have hNpos : 0 < a * 2 ^ 200 / b := lt_of_lt_of_le (by positivity) hN1
  have hN2 : a * 2 ^ 200 / b < 2 ^ 400 := by
    have h1 : a * 2 ^ 200 / b ≤ 2 ^ 300 := by
      calc a * 2 ^ 200 / b ≤ b * 2 ^ 300 / b := by
            apply Nat.div_le_div_right
            calc a * 2 ^ 200 ≤ (b * 2 ^ 100) * 2 ^ 200 := Nat.mul_le_mul_right _ hba
              _ = b * 2 ^ 300 := by ring
        _ = 2 ^ 300 := Nat.mul_div_cancel_left _ hb
    have h2 : (2 : ℕ) ^ 300 < 2 ^ 400 := Nat.pow_lt_pow_right (by norm_num) (by norm_num)
    omega
  have hL := log2f_le 400 (a * 2 ^ 200 / b) hNpos hN2
  have hNle : ((a * 2 ^ 200 / b : ℕ) : ℚ) ≤ (a : ℚ) * 2 ^ 200 / b := by
    calc ((a * 2 ^ 200 / b : ℕ) : ℚ) ≤ ((a * 2 ^ 200 : ℕ) : ℚ) / (b : ℚ) := Nat.cast_div_le
      _ = (a : ℚ) * 2 ^ 200 / b := by push_cast; ring
  set e : ℤ := (log2f 400 (a * 2 ^ 200 / b) : ℤ) - 200 with he
  have hkey : (2 : ℚ) ^ e ≤ (a : ℚ) / b := by
    rw [he, zpow_sub₀ hz, zpow_natCast]
    have h200 : (2 : ℚ) ^ (200 : ℤ) = (2 : ℚ) ^ (200 : ℕ) := by norm_num
    rw [h200]
    have h2 : (2 : ℚ) ^ log2f 400 (a * 2 ^ 200 / b) ≤ (a : ℚ) * 2 ^ 200 / b := by
      refine le_trans ?_ hNle
      exact_mod_cast hL
    calc (2 : ℚ) ^ log2f 400 (a * 2 ^ 200 / b) / 2 ^ (200 : ℕ)
        ≤ ((a : ℚ) * 2 ^ 200 / b) / 2 ^ (200 : ℕ) :=
          (div_le_div_right (by positivity)).mpr h2
      _ = (a : ℚ) / b := by
          rw [div_div, mul_comm (b : ℚ) ((2 : ℚ) ^ (200 : ℕ))]
          rw [← div_div, mul_div_assoc]
          rw [div_self (by positivity : ((2 : ℚ) ^ (200 : ℕ)) ≠ 0), mul_one]
  have he2 : (fl64 a b).2 = e := rfl
  have hn1 : (fl64 a b).1 =
      if 0 ≤ 52 - e then roundNE (a * 2 ^ (52 - e).toNat) b
      else roundNE a (b * 2 ^ (e - 52).toNat) := rfl
  clear_value e
  apply round_scaled_err ((a : ℚ) / b) (fl64 a b).1 (fl64 a b).2
  · rw [he2]
    exact hkey
  · rw [hn1, he2]
    by_cases hcase : (0 : ℤ) ≤ 52 - e
    · rw [if_pos hcase]
      set k : ℕ := (52 - e).toNat with hkdef
      have hk : (k : ℤ) = 52 - e := Int.toNat_of_nonneg hcase
      clear_value k
      have herr := roundNE_err (a * 2 ^ k) b hb
      have hp : ((a * 2 ^ k : ℕ) : ℚ) = (a : ℚ) * (2 : ℚ) ^ (k : ℕ) := by
        push_cast
        ring
      have hzp : (2 : ℚ) ^ (k : ℕ) = (2 : ℚ) ^ ((52 : ℤ) - e) := by
        rw [← hk, zpow_natCast]
      have htrans : ((a * 2 ^ k : ℕ) : ℚ) / (b : ℚ) =
          ((a : ℚ) / b) * (2 : ℚ) ^ ((52 : ℤ) - e) := by
        rw [hp, ← hzp]
        ring
      rw [htrans] at herr
      exact herr
    · rw [if_neg hcase]
      set k : ℕ := (e - 52).toNat with hkdef
      have hk : (k : ℤ) = e - 52 := Int.toNat_of_nonneg (by omega)
      clear_value k
      have hpos2 : 0 < b * 2 ^ k := by positivity
      have herr := roundNE_err a (b * 2 ^ k) hpos2
      have hcast : ((b * 2 ^ k : ℕ) : ℚ) = (b : ℚ) * (2 : ℚ) ^ (k : ℕ) := by
        push_cast
        ring
      have hzp : ((2 : ℚ) ^ (k : ℕ))⁻¹ = (2 : ℚ) ^ ((52 : ℤ) - e) := by
        rw [← zpow_natCast (2 : ℚ) k, ← zpow_neg]
        congr 1
        omega
      have htrans : (a : ℚ) / ((b * 2 ^ k : ℕ) : ℚ) =
          ((a : ℚ) / b) * (2 : ℚ) ^ ((52 : ℤ) - e) := by
        rw [hcast, ← div_div, div_eq_mul_inv ((a : ℚ) / b), hzp]
      rw [htrans] at herr
      exact herr

theorem mulfl_err (x n1 : Nat) (e1 : Int) (hx : 0 < x) (hn1 : 0 < n1)
    (hprod : x * n1 < 2 ^ 400) :
    |fval (mulfl x n1 e1).1 (mulfl x n1 e1).2 - (x : ℚ) * fval n1 e1| ≤
      ((x : ℚ) * fval n1 e1) / 2 ^ 53 := by
  have hz : (2 : ℚ) ≠ 0 := by norm_num
  have hppos : 0 < x * n1 := Nat.mul_pos hx hn1
  have hL := log2f_le 400 (x * n1) hppos hprod
  have hxq : (x : ℚ) * fval n1 e1 = ((x * n1 : ℕ) : ℚ) * (2 : ℚ) ^ (e1 - 52) := by
    simp only [fval]
    push_cast
    ring
  set L : ℤ := (log2f 400 (x * n1) : ℤ) with hLdef
  have he2 : (mulfl x n1 e1).2 = L + e1 - 52 := rfl
  have hn2 : (mulfl x n1 e1).1 =
      if 0 ≤ L - 52 then roundNE (x * n1) (2 ^ (L - 52).toNat)
      else (x * n1) * 2 ^ (52 - L).toNat := rfl
  have hkey : (2 : ℚ) ^ (L + e1 - 52) ≤ (x : ℚ) * fval n1 e1 := by
    rw [hxq]
    have h1 : (2 : ℚ) ^ L ≤ ((x * n1 : ℕ) : ℚ) := by
      rw [hLdef, zpow_natCast]
      exact_mod_cast hL
    have hsplit : (2 : ℚ) ^ (L + e1 - 52) = (2 : ℚ) ^ L * (2 : ℚ) ^ (e1 - 52) := by
      rw [← zpow_add₀ hz]
      congr 1
      ring
    rw [hsplit]
    exact mul_le_mul_of_nonneg_right h1 (le_of_lt (zpow_pos (by norm_num) _))
  clear_value L
  apply round_scaled_err ((x : ℚ) * fval n1 e1) (mulfl x n1 e1).1 (mulfl x n1 e1).2
  · rw [he2]
    exact hkey
  · rw [hn2, he2]
    by_cases hcase : (0 : ℤ) ≤ L - 52
    · rw [if_pos hcase]
      set k : ℕ := (L - 52).toNat with hkdef
      have hk : (k : ℤ) = L - 52 := Int.toNat_of_nonneg hcase
      clear_value k
      have hden : 0 < 2 ^ k := pow_pos (by norm_num : (0:ℕ) < 2) k
      have herr := roundNE_err (x * n1) (2 ^ k) hden
      have hcomb : (2 : ℚ) ^ (e1 - 52) * (2 : ℚ) ^ ((52 : ℤ) - (L + e1 - 52)) =
          (2 : ℚ) ^ (-((k : ℕ) : ℤ)) := by
        rw [hk, ← zpow_add₀ hz]
        congr 1
        ring
      have hcast : ((2 ^ k : ℕ) : ℚ) = (2 : ℚ) ^ (k : ℕ) := by
        push_cast
        ring
      have htrans : ((x * n1 : ℕ) : ℚ) / ((2 ^ k : ℕ) : ℚ) =
          ((x : ℚ) * fval n1 e1) * (2 : ℚ) ^ ((52 : ℤ) - (L + e1 - 52)) := by
        rw [hxq, mul_assoc (((x * n1 : ℕ)) : ℚ) ((2 : ℚ) ^ (e1 - 52)), hcomb]
        rw [zpow_neg, zpow_natCast, hcast, div_eq_mul_inv]
      rw [htrans] at herr
      exact herr
    · rw [if_neg hcase]
      set k2 : ℕ := (52 - L).toNat with hk2def
      have hk : (k2 : ℤ) = 52 - L := Int.toNat_of_nonneg (by omega)
      clear_value k2
      have hcomb : (2 : ℚ) ^ (e1 - 52) * (2 : ℚ) ^ ((52 : ℤ) - (L + e1 - 52)) =
          (2 : ℚ) ^ ((52 : ℤ) - L) := by
        rw [← zpow_add₀ hz]
        congr 1
        ring
      have hzp : (2 : ℚ) ^ (k2 : ℕ) = (2 : ℚ) ^ ((52 : ℤ) - L) := by
        rw [← hk, zpow_natCast]
      have hexact : (((x * n1) * 2 ^ k2 : ℕ) : ℚ) =
          ((x : ℚ) * fval n1 e1) * (2 : ℚ) ^ ((52 : ℤ) - (L + e1 - 52)) := by
        rw [hxq, mul_assoc (((x * n1 : ℕ)) : ℚ) ((2 : ℚ) ^ (e1 - 52)), hcomb]
        rw [← hzp]
        push_cast
        ring
      rw [hexact, sub_self, abs_zero]
      norm_num

theorem floorpos_eq (n : Nat) (e : Int) :
    ((floorpos n e : ℕ) : ℤ) = ⌊fval n e⌋ := by
  simp only [floorpos, fval]
  by_cases hc : (0 : ℤ) ≤ e - 52
  · rw [if_pos hc]
    have hk : ((e - 52).toNat : ℤ) = e - 52 := Int.toNat_of_nonneg hc
    have hval : (n : ℚ) * (2 : ℚ) ^ (e - 52) = ((n * 2 ^ (e - 52).toNat : ℕ) : ℚ) := by
      push_cast
      rw [← zpow_natCast (2 : ℚ) ((e - 52).toNat), hk]
    rw [hval, Int.floor_natCast]
  · rw [if_neg hc]
    set k : ℕ := (52 - e).toNat with hkdef
    have hk : (k : ℤ) = 52 - e := Int.toNat_of_nonneg (by omega)
    clear_value k
    have hzp : ((2 : ℚ) ^ (k : ℕ))⁻¹ = (2 : ℚ) ^ (e - 52) := by
      rw [← zpow_natCast (2 : ℚ) k, ← zpow_neg]
      congr 1
      omega
    have hval : (n : ℚ) * (2 : ℚ) ^ (e - 52) = (n : ℚ) / ((2 ^ k : ℕ) : ℚ) := by
      rw [← hzp]
      push_cast
      rw [div_eq_mul_inv]
    rw [hval, Rat.floor_natCast_div_natCast]
    exact (Int.natCast_div _ _).symm

theorem resize_side_bounds (x m : Nat) (hx1 : 256 ≤ x) (hx2 : x ≤ 4096)
    (hm1 : 1400 < m) (hm2 : m ≤ 4096) (hxm : x ≤ m) :
    (⌊(x : ℚ) * 1400 / (m : ℚ)⌋ - 1 ≤
        ((resize_side x (fl64 1400 m).1 (fl64 1400 m).2 : ℕ) : ℤ) ∧
      ((resize_side x (fl64 1400 m).1 (fl64 1400 m).2 : ℕ) : ℤ) ≤
        ⌊(x : ℚ) * 1400 / (m : ℚ)⌋ + 1) ∧
    ((resize_side x (fl64 1400 m).1 (fl64 1400 m).2 : ℕ) : ℤ) ≤ 1400 ∧
    (x = m → 1399 ≤ ((resize_side x (fl64 1400 m).1 (fl64 1400 m).2 : ℕ) : ℤ)) := by
  have hm0 : 0 < m := by omega
  have hmq : (0 : ℚ) < (m : ℚ) := by exact_mod_cast hm0
  have hxq0 : (0 : ℚ) < (x : ℚ) := by exact_mod_cast (by omega : 0 < x)
  have hd := fl64_err 1400 m (by norm_num) hm0
    (le_trans hm2 (by norm_num))
    (le_trans (by omega) (Nat.le_mul_of_pos_right m (pow_pos (by norm_num) 100)))
  push_cast at hd
  set d : ℚ := fval (fl64 1400 m).1 (fl64 1400 m).2 with hddef
  set q : ℚ := (1400 : ℚ) / (m : ℚ) with hqdef
  have hq_pos : 0 < q := by
    rw [hqdef]
    positivity
  have hq_le_one : q ≤ 1 := by
    rw [hqdef, div_le_one hmq]
    exact_mod_cast (by omega : 1400 ≤ m)
  have habs := abs_le.mp hd
  have hq53lt : q / 2 ^ 53 < q := div_lt_self hq_pos (by norm_num)
  have hd_pos : 0 < d := by linarith [habs.1]
  have hn1_pos : 0 < (fl64 1400 m).1 := by
    rcases Nat.eq_zero_or_pos (fl64 1400 m).1 with h0 | hpos
    · exfalso
      have hz0 : d = 0 := by
        rw [hddef, h0]
        simp [fval]
      linarith
    · exact hpos
  have hsig := fl64_sig_le 1400 m hm0
  have hprod : x * (fl64 1400 m).1 < 2 ^ 400 := by
    calc x * (fl64 1400 m).1 ≤ 4096 * (1400 * 2 ^ 252 + 1) := Nat.mul_le_mul hx2 hsig
      _ < 2 ^ 400 := by norm_num
  have hp := mulfl_err x (fl64 1400 m).1 (fl64 1400 m).2 (by omega) hn1_pos hprod
  rw [← hddef] at hp
  set pv : ℚ :=
    fval (mulfl x (fl64 1400 m).1 (fl64 1400 m).2).1
      (mulfl x (fl64 1400 m).1 (fl64 1400 m).2).2 with hpvdef
  have hX : (x : ℚ) * q = (x : ℚ) * 1400 / (m : ℚ) := by
    rw [hqdef]
    ring
  have hXle : (x : ℚ) * q ≤ 4096 := by
    calc (x : ℚ) * q ≤ (x : ℚ) * 1 := mul_le_mul_of_nonneg_left hq_le_one (le_of_lt hxq0)
      _ = (x : ℚ) := mul_one _
      _ ≤ 4096 := by exact_mod_cast hx2
  have hxd_le : (x : ℚ) * d ≤ 2 * ((x : ℚ) * q) := by
    have hd2q : d ≤ 2 * q := by linarith [habs.2]
    calc (x : ℚ) * d ≤ (x : ℚ) * (2 * q) :=
          mul_le_mul_of_nonneg_left hd2q (le_of_lt hxq0)
      _ = 2 * ((x : ℚ) * q) := by ring
  have hnear : |pv - (x : ℚ) * q| ≤ 1 / 4 := by
    have htri : |pv - (x : ℚ) * q| ≤ |pv - (x : ℚ) * d| + |(x : ℚ) * d - (x : ℚ) * q| := by
      have hsplit : pv - (x : ℚ) * q = (pv - (x : ℚ) * d) + ((x : ℚ) * d - (x : ℚ) * q) := by
        ring
      rw [hsplit]
      exact abs_add _ _
    have h2 : |(x : ℚ) * d - (x : ℚ) * q| = (x : ℚ) * |d - q| := by
      rw [← mul_sub, abs_mul, abs_of_pos hxq0]
    have h3 : (x : ℚ) * |d - q| ≤ (x : ℚ) * (q / 2 ^ 53) :=
      mul_le_mul_of_nonneg_left hd (le_of_lt hxq0)
    have h5 : ((x : ℚ) * d) / 2 ^ 53 ≤ (2 * ((x : ℚ) * q)) / 2 ^ 53 :=
      (div_le_div_right (by norm_num : (0 : ℚ) < 2 ^ 53)).mpr hxd_le
    have h6 : (x : ℚ) * (q / 2 ^ 53) = ((x : ℚ) * q) / 2 ^ 53 := by ring
    have h7 : (2 * ((x : ℚ) * q)) / 2 ^ 53 + ((x : ℚ) * q) / 2 ^ 53 ≤ 1 / 4 := by
      linarith [hXle]
    calc |pv - (x : ℚ) * q|
        ≤ |pv - (x : ℚ) * d| + |(x : ℚ) * d - (x : ℚ) * q| := htri
      _ ≤ ((x : ℚ) * d) / 2 ^ 53 + (x : ℚ) * (q / 2 ^ 53) := by
          rw [h2]
          exact add_le_add hp h3
      _ ≤ (2 * ((x : ℚ) * q)) / 2 ^ 53 + ((x : ℚ) * q) / 2 ^ 53 := by
          rw [h6]
          exact add_le_add h5 (le_refl _)
      _ ≤ 1 / 4 := h7
  have hfl : ((resize_side x (fl64 1400 m).1 (fl64 1400 m).2 : ℕ) : ℤ) = ⌊pv⌋ :=
    floorpos_eq _ _
  have hnearb := abs_le.mp hnear
  refine ⟨⟨?_, ?_⟩, ?_, ?_⟩
  · rw [hfl, ← hX]
    apply Int.le_floor.mpr
    push_cast
    have hfle := Int.floor_le ((x : ℚ) * q)
    linarith [hnearb.1]
  · rw [hfl, ← hX]
    have h2 : pv < ((⌊(x : ℚ) * q⌋ + 2 : ℤ) : ℚ) := by
      push_cast
      have hlt := Int.lt_floor_add_one ((x : ℚ) * q)
      linarith [hnearb.2]
    have h3 := Int.floor_lt.mpr h2
    omega
  · rw [hfl]
    have hXle14 : (x : ℚ) * q ≤ 1400 := by
      rw [hqdef]
      calc (x : ℚ) * (1400 / (m : ℚ)) ≤ (m : ℚ) * (1400 / (m : ℚ)) := by
            apply mul_le_mul_of_nonneg_right
            · exact_mod_cast hxm
            · positivity
        _ = 1400 := by field_simp
    have h2 : pv < ((1401 : ℤ) : ℚ) := by
      push_cast
      linarith [hnearb.2]
    have h3 := Int.floor_lt.mpr h2
    omega
  · intro hxe
    rw [hfl]
    have hXeq : (x : ℚ) * q = 1400 := by
      rw [hqdef, hxe]
      field_simp
    apply Int.le_floor.mpr
    push_cast
    linarith [hnearb.1, hXeq.le, hXeq.ge]

/-- C6 (amended): for every image within the validation bounds (each side
in [256, 4096]) whose sides both fit in 1400, resizing is the identity;
for every such image with a larger dimension, each resized side is within
one pixel of the exactly scaled value rounded down (aspect ratio preserved
within integer rounding), and the resized larger dimension is 1399 or
1400 — exactly the bound, or one pixel short when the double-precision
arithmetic rounds down, and never above it. -/
theorem C6_resize_float_within_one (w h : Nat) (hw1 : 256 ≤ w) (hw2 : w ≤ 4096)
    (hh1 : 256 ≤ h) (hh2 : h ≤ 4096) :
    (w ≤ 1400 ∧ h ≤ 1400 →
      resize_image { width := w, height := h } 1400 = { width := w, height := h }) ∧
    (1400 < max w h →
      (resize_image { width := w, height := h } 1400).width ≤ w * 1400 / max w h + 1 ∧
      w * 1400 / max w h ≤ (resize_image { width := w, height := h } 1400).width + 1 ∧
      (resize_image { width := w, height := h } 1400).height ≤ h * 1400 / max w h + 1 ∧
      h * 1400 / max w h ≤ (resize_image { width := w, height := h } 1400).height + 1 ∧
      (max (resize_image { width := w, height := h } 1400).width
          (resize_image { width := w, height := h } 1400).height = 1399 ∨
        max (resize_image { width := w, height := h } 1400).width
          (resize_image { width := w, height := h } 1400).height = 1400)) := by
  constructor
  · rintro ⟨h1, h2⟩
    simp [resize_image, h1, h2]
  · intro hmax
    have hcond : ¬(w ≤ 1400 ∧ h ≤ 1400) := by
      rcases lt_max_iff.mp hmax with h1 | h1 <;> omega
    have hm2 : max w h ≤ 4096 := max_le hw2 hh2
    have hres : resize_image { width := w, height := h } 1400 =
        { width := resize_side w (fl64 1400 (max w h)).1 (fl64 1400 (max w h)).2,
          height := resize_side h (fl64 1400 (max w h)).1 (fl64 1400 (max w h)).2 } := by
      simp [resize_image, hcond]
    rw [hres]
    dsimp only
    obtain ⟨⟨hwl, hwu⟩, hwle, hweq⟩ :=
      resize_side_bounds w (max w h) hw1 hw2 hmax hm2 (le_max_left w h)
    obtain ⟨⟨hhl, hhu⟩, hhle, hheq⟩ :=
      resize_side_bounds h (max w h) hh1 hh2 hmax hm2 (le_max_right w h)
    have hflw : ⌊(w : ℚ) * 1400 / ((max w h : ℕ) : ℚ)⌋ = ((w * 1400 / max w h : ℕ) : ℤ) := by
      have hcast : (w : ℚ) * 1400 / ((max w h : ℕ) : ℚ) =
          ((w * 1400 : ℕ) : ℚ) / ((max w h : ℕ) : ℚ) := by
        push_cast
        ring
      rw [hcast, Rat.floor_natCast_div_natCast]
      exact (Int.natCast_div _ _).symm
    have hflh : ⌊(h : ℚ) * 1400 / ((max w h : ℕ) : ℚ)⌋ = ((h * 1400 / max w h : ℕ) : ℤ) := by
      have hcast : (h : ℚ) * 1400 / ((max w h : ℕ) : ℚ) =
          ((h * 1400 : ℕ) : ℚ) / ((max w h : ℕ) : ℚ) := by
        push_cast
        ring
      rw [hcast, Rat.floor_natCast_div_natCast]
      exact (Int.natCast_div _ _).symm
    rw [hflw] at hwl hwu
    rw [hflh] at hhl hhu
    refine ⟨?_, ?_, ?_, ?_, ?_⟩
    · omega
    · omega
    · omega
    · omega
    · rcases Nat.le_total h w with hc | hc
      · have hmw : max w h = w := max_eq_left hc
        have h1399 := hweq hmw.symm
        rcases Nat.le_total (resize_side w (fl64 1400 (max w h)).1 (fl64 1400 (max w h)).2)
            (resize_side h (fl64 1400 (max w h)).1 (fl64 1400 (max w h)).2) with hmx | hmx
        · rw [Nat.max_eq_right hmx]
          omega
        · rw [Nat.max_eq_left hmx]
          omega
      · have hmh : max w h = h := max_eq_right hc
        have h1399 := hheq hmh.symm
        rcases Nat.le_total (resize_side w (fl64 1400 (max w h)).1 (fl64 1400 (max w h)).2)
            (resize_side h (fl64 1400 (max w h)).1 (fl64 1400 (max w h)).2) with hmx | hmx
        · rw [Nat.max_eq_right hmx]
          omega
        · rw [Nat.max_eq_left hmx]
          omega

/-- C6 counterexample: for a 2099x1000 image (inside the validation
bounds), the binary64 value of `1400/2099` multiplied back by 2099 falls
just below 1400, and `int()` truncates it to 1399: the resized larger
dimension does not equal the 1400 bound, refuting the claim as stated. -/
theorem C6_counterexample_float_rounding :
    resize_image { width := 2099, height := 1000 } 1400 =
      { width := 1399, height := 666 } ∧
    max (resize_image { width := 2099, height := 1000 } 1400).width
      (resize_image { width := 2099, height := 1000 } 1400).height ≠ 1400 ∧
    256 ≤ (1000 : Nat) ∧ (2099 : Nat) ≤ 4096 ∧ 1400 < max 2099 1000 := by
  refine ⟨rfl, ?_, by decide, by decide, by decide⟩
  decide

/-- Witness for the amended C6 at the spec's 2000x1000 example. -/
theorem C6_resize_float_within_one_witness :
    (2000 ≤ 1400 ∧ 1000 ≤ 1400 →
      resize_image { width := 2000, height := 1000 } 1400 =
        { width := 2000, height := 1000 }) ∧
    (1400 < max 2000 1000 →
      (resize_image { width := 2000, height := 1000 } 1400).width ≤
        2000 * 1400 / max 2000 1000 + 1 ∧
      2000 * 1400 / max 2000 1000 ≤
        (resize_image { width := 2000, height := 1000 } 1400).width + 1 ∧
      (resize_image { width := 2000, height := 1000 } 1400).height ≤
        1000 * 1400 / max 2000 1000 + 1 ∧
      1000 * 1400 / max 2000 1000 ≤
        (resize_image { width := 2000, height := 1000 } 1400).height + 1 ∧
      (max (resize_image { width := 2000, height := 1000 } 1400).width
          (resize_image { width := 2000, height := 1000 } 1400).height = 1399 ∨
        max (resize_image { width := 2000, height := 1000 } 1400).width
          (resize_image { width := 2000, height := 1000 } 1400).height = 1400)) :=
  C6_resize_float_within_one 2000 1000 (by norm_num) (by norm_num) (by norm_num)
    (by norm_num)

theorem prompts_default_of_fallback (client : Bool) (gpt : GptOutcome)
    (description style room : String) (cp : Option String)
    (hyp : client = false ∨ (∃ m, gpt = GptOutcome.apiError m) ∨
      (∃ m, gpt = GptOutcome.badJson m)) :
    generate_design_prompts client gpt description style room cp =
      default_prompts style room := by
  rcases hyp with hc | ⟨m, hg⟩ | ⟨m, hg⟩
  · simp [generate_design_prompts, hc]
  · subst hg
    cases client <;> simp [generate_design_prompts]
  · subst hg
    cases client <;> simp [generate_design_prompts]

theorem alookup_default_clip (style room : String) :
    alookup (default_prompts style room) "clip" =
      some ("A " ++ style ++ " " ++ room ++
        " with elegant furniture, balanced lighting, and harmonious colors.") := rfl

theorem alookup_default_t5 (style room : String) :
    alookup (default_prompts style room) "t5" =
      some ("Transform this " ++ room ++ " into a " ++ style ++
        " style space. Include furniture appropriate for a " ++ room ++
        ", with balanced composition, proper lighting, and a cohesive color scheme that matches the " ++
        style ++ " aesthetic.") := rfl

/-- C7: whenever the GPT client is unavailable, its call raises, or the
response payload is malformed JSON, prompt generation returns exactly the
deterministic template prompts (the short one being the exact `A {style}
{room_type} with elegant furniture, balanced lighting, and harmonious
colors.` template), and a pipeline run whose remaining external steps
succeed still completes with the saved output path. -/
theorem C7_fallback_template_prompts (client : Bool) (gpt : GptOutcome)
    (description : String) (job : Job) (fl : Except String String)
    (hyp : client = false ∨ (∃ m, gpt = GptOutcome.apiError m) ∨
      (∃ m, gpt = GptOutcome.badJson m)) :
    generate_design_prompts client gpt description job.style job.room_type
      job.color_palette = default_prompts job.style job.room_type ∧
    alookup (generate_design_prompts client gpt description job.style job.room_type
      job.color_palette) "clip" =
      some ("A " ++ job.style ++ " " ++ job.room_type ++
        " with elegant furniture, balanced lighting, and harmonious colors.") ∧
    runPipeline job client
      { florence := fl, gpt := gpt, canny := Except.ok (), flux := Except.ok (), save := Except.ok () } =
      Except.ok (save_image_path ("outputs/" ++ job.request_id ++ "_output.png")) := by
  have hdef := prompts_default_of_fallback client gpt description job.style
    job.room_type job.color_palette hyp
  have hdef2 := prompts_default_of_fallback client gpt
    (generate_image_description fl) job.style job.room_type job.color_palette hyp
  refine ⟨hdef, ?_, ?_⟩
  · rw [hdef, alookup_default_clip]
  · simp [runPipeline, hdef2, alookup_default_clip, alookup_default_t5]

/-- Witness for C7 with an absent client and an API error outcome. -/
theorem C7_fallback_template_prompts_witness :
    generate_design_prompts false (GptOutcome.apiError "no key") "desc" demoJob.style
      demoJob.room_type demoJob.color_palette =
      default_prompts demoJob.style demoJob.room_type ∧
    alookup (generate_design_prompts false (GptOutcome.apiError "no key") "desc"
      demoJob.style demoJob.room_type demoJob.color_palette) "clip" =
      some ("A " ++ demoJob.style ++ " " ++ demoJob.room_type ++
        " with elegant furniture, balanced lighting, and harmonious colors.") ∧
    runPipeline demoJob false
      { florence := Except.ok "desc2", gpt := GptOutcome.apiError "no key", canny := Except.ok (), flux := Except.ok (), save := Except.ok () } =
      Except.ok (save_image_path ("outputs/" ++ demoJob.request_id ++ "_output.png")) :=
  C7_fallback_template_prompts false (GptOutcome.apiError "no key") "desc" demoJob
    (Except.ok "desc2") (Or.inl rfl)

/-- C8: evaluation at out-of-bounds and unrecognized-format uploads. The
validator itself raises a 400 with a descriptive reason before any task is
created (the returned service state is unchanged), but the endpoint's
blanket `except Exception` re-raises it as a 500 whose detail wraps the
validator's message — so the client sees 500, not the claimed 400. -/
theorem C8_validation_rejected_before_task_but_as_500 :
    validate_image demoSmallPng 256 4096 =
      Except.error (400, "Image dimensions too small. Minimum size is 256x256 pixels.") ∧
    validate_image { width := 500, height := 5000, format := some "PNG" } 256 4096 =
      Except.error (400, "Image dimensions too large. Maximum size is 4096x4096 pixels.") ∧
    validate_image { width := 500, height := 500, format := some "GIF" } 256 4096 =
      Except.error (400, "Unsupported image format. Please upload a JPEG or PNG image.") ∧
    (redesign_populated_room demoService0 demoSmallPng "modern" "living room" none "rid" (Except.ok ())).1 =
      Except.error (500, "Error processing redesign request: 400: Image dimensions too small. Minimum size is 256x256 pixels.") ∧
    (redesign_populated_room demoService0 demoSmallPng "modern" "living room" none "rid" (Except.ok ())).2 = demoService0 := by
  refine ⟨rfl, rfl, rfl, ?_, rfl⟩
  rfl

theorem get_model_idem (m mb : ModelManager) (n : String) (r : Resource)
    (h : get_model m n = Except.ok (r, mb)) :
    alookup mb.models n = some r ∧ get_model mb n = Except.ok (r, mb) := by
  rcases hl : alookup m.models n with _ | r0
  · simp only [get_model, hl] at h
    by_cases hn : n = "florence-2"
    · rw [if_pos hn] at h
      have hpair := Except.ok.inj h
      rw [Prod.mk.injEq] at hpair
      obtain ⟨hr, hmb⟩ := hpair
      subst hr
      subst hmb
      constructor
      · exact alookup_aset_self _ _ _
      · simp [get_model, alookup_aset_self]
    · rw [if_neg hn] at h
      simp at h
  · simp only [get_model, hl] at h
    have hpair := Except.ok.inj h
    rw [Prod.mk.injEq] at hpair
    obtain ⟨hr, hmb⟩ := hpair
    subst hr
    subst hmb
    exact ⟨hl, by simp [get_model, hl]⟩

theorem get_processor_idem (m mb : ModelManager) (n : String) (r : Resource)
    (h : get_processor m n = Except.ok (r, mb)) :
    alookup mb.processors n = some r ∧ get_processor mb n = Except.ok (r, mb) := by
  rcases hl : alookup m.processors n with _ | r0
  · simp only [get_processor, hl] at h
    by_cases hn : n = "florence-2"
    · rw [if_pos hn] at h
      have hpair := Except.ok.inj h
      rw [Prod.mk.injEq] at hpair
      obtain ⟨hr, hmb⟩ := hpair
      subst hr
      subst hmb
      constructor
      · exact alookup_aset_self _ _ _
      · simp [get_processor, alookup_aset_self]
    · rw [if_neg hn] at h
      by_cases hn2 : n = "canny"
      · rw [if_pos hn2] at h
        have hpair := Except.ok.inj h
        rw [Prod.mk.injEq] at hpair
        obtain ⟨hr, hmb⟩ := hpair
        subst hr
        subst hmb
        constructor
        · exact alookup_aset_self _ _ _
        · simp [get_processor, alookup_aset_self]
      · rw [if_neg hn2] at h
        simp at h
  · simp only [get_processor, hl] at h
    have hpair := Except.ok.inj h
    rw [Prod.mk.injEq] at hpair
    obtain ⟨hr, hmb⟩ := hpair
    subst hr
    subst hmb
    exact ⟨hl, by simp [get_processor, hl]⟩

theorem get_pipeline_idem (m mb : ModelManager) (n : String) (r : Resource)
    (h : get_pipeline m n = Except.ok (r, mb)) :
    alookup mb.pipelines n = some r ∧ get_pipeline mb n = Except.ok (r, mb) := by
  rcases hl : alookup m.pipelines n with _ | r0
  · simp only [get_pipeline, hl] at h
    by_cases hn : n = "flux-canny"
    · rw [if_pos hn] at h
      have hpair := Except.ok.inj h
      rw [Prod.mk.injEq] at hpair
      obtain ⟨hr, hmb⟩ := hpair
      subst hr
      subst hmb
      constructor
      · exact alookup_aset_self _ _ _
      · simp [get_pipeline, alookup_aset_self]
    · rw [if_neg hn] at h
      simp at h
  · simp only [get_pipeline, hl] at h
    have hpair := Except.ok.inj h
    rw [Prod.mk.injEq] at hpair
    obtain ⟨hr, hmb⟩ := hpair
    subst hr
    subst hmb
    exact ⟨hl, by simp [get_pipeline, hl]⟩

/-- C9: whichever getter succeeds, the returned resource is now cached
under its name, and an immediate second get returns the identical cached
instance with the manager state unchanged (so nothing is reconstructed;
getting twice equals getting once). -/
theorem C9_model_cache_idempotent (m1 m1b m2 m2b m3 m3b : ModelManager)
    (n1 n2 n3 : String) (r1 r2 r3 : Resource)
    (h1 : get_model m1 n1 = Except.ok (r1, m1b))
    (h2 : get_processor m2 n2 = Except.ok (r2, m2b))
    (h3 : get_pipeline m3 n3 = Except.ok (r3, m3b)) :
    (alookup m1b.models n1 = some r1 ∧ get_model m1b n1 = Except.ok (r1, m1b)) ∧
    (alookup m2b.processors n2 = some r2 ∧ get_processor m2b n2 = Except.ok (r2, m2b)) ∧
    (alookup m3b.pipelines n3 = some r3 ∧ get_pipeline m3b n3 = Except.ok (r3, m3b)) :=
  ⟨get_model_idem m1 m1b n1 r1 h1, get_processor_idem m2 m2b n2 r2 h2,
   get_pipeline_idem m3 m3b n3 r3 h3⟩

/-- Witness for C9: first gets of the three resources on fresh managers. -/
theorem C9_model_cache_idempotent_witness :
    (alookup ({ models := [("florence-2", Resource.florence_model 0)], processors := [], pipelines := [], load_count := 1 } : ModelManager).models "florence-2" = some (Resource.florence_model 0) ∧
      get_model { models := [("florence-2", Resource.florence_model 0)], processors := [], pipelines := [], load_count := 1 } "florence-2" =
        Except.ok (Resource.florence_model 0, { models := [("florence-2", Resource.florence_model 0)], processors := [], pipelines := [], load_count := 1 })) ∧
    (alookup ({ models := [], processors := [("canny", Resource.canny_detector 0)], pipelines := [], load_count := 1 } : ModelManager).processors "canny" = some (Resource.canny_detector 0) ∧
      get_processor { models := [], processors := [("canny", Resource.canny_detector 0)], pipelines := [], load_count := 1 } "canny" =
        Except.ok (Resource.canny_detector 0, { models := [], processors := [("canny", Resource.canny_detector 0)], pipelines := [], load_count := 1 })) ∧
    (alookup ({ models := [], processors := [], pipelines := [("flux-canny", Resource.flux_pipeline 0)], load_count := 1 } : ModelManager).pipelines "flux-canny" = some (Resource.flux_pipeline 0) ∧
      get_pipeline { models := [], processors := [], pipelines := [("flux-canny", Resource.flux_pipeline 0)], load_count := 1 } "flux-canny" =
        Except.ok (Resource.flux_pipeline 0, { models := [], processors := [], pipelines := [("flux-canny", Resource.flux_pipeline 0)], load_count := 1 })) :=
  C9_model_cache_idempotent ModelManager_init
    { models := [("florence-2", Resource.florence_model 0)], processors := [], pipelines := [], load_count := 1 }
    ModelManager_init
    { models := [], processors := [("canny", Resource.canny_detector 0)], pipelines := [], load_count := 1 }
    ModelManager_init
    { models := [], processors := [], pipelines := [("flux-canny", Resource.flux_pipeline 0)], load_count := 1 }
    "florence-2" "canny" "flux-canny"
    (Resource.florence_model 0) (Resource.canny_detector 0) (Resource.flux_pipeline 0)
    rfl rfl rfl

/-- C10: the failure branch only writes the `status` and `error` fields:
the failed record keeps its creation-time `request_id` and `created_at`,
acquires neither an output path nor a completion timestamp, and every
other record of the registry is untouched; moreover (last conjunct) no
step of the service ever changes an existing record's `request_id` or
`created_at`, so those fields indeed still hold their creation values. -/
theorem C10_failure_touches_only_status_error (s : ServiceState) (hs : Reachable s)
    (pre post : List Job) (job : Job) (env : RunEnv) (e : String) (id2 : Nat)
    (s3 s4 : ServiceState) (id3 : Nat) (r3 : TaskRecord)
    (hrun : s.running = pre ++ job :: post)
    (herr : runPipeline job s.openai_client env = Except.error e)
    (hne : id2 ≠ job.task_id)
    (hs3 : Reachable s3) (hstep : Step s3 s4)
    (hl3 : alookup s3.tasks id3 = some r3) :
    (∃ r, alookup s.tasks job.task_id = some r ∧
      alookup (finishRun s pre post job env).tasks job.task_id =
        some { status := Status.failed, request_id := r.request_id,
               created_at := r.created_at, output_path := none,
               completed_at := none, error := some e }) ∧
    alookup (finishRun s pre post job env).tasks id2 = alookup s.tasks id2 ∧
    ∃ r4, alookup s4.tasks id3 = some r4 ∧ r4.request_id = r3.request_id ∧
      r4.created_at = r3.created_at := by
  have hInv := Reachable_inv hs
  have hjob : job ∈ s.running := by
    rw [hrun]
    simp
  obtain ⟨r0, hr0, hst0, hop0, hca0, he0⟩ := hInv.run_processing job hjob
  refine ⟨⟨r0, hr0, ?_⟩, ?_, ?_⟩
  · simp only [finishRun, herr]
    rw [alookup_aupdate_self, hr0]
    rcases r0 with ⟨st0, rq0, ca0, op0, cat0, er0⟩
    change op0 = none at hop0
    change cat0 = none at hca0
    subst hop0
    subst hca0
    rfl
  · simp only [finishRun, herr]
    rw [alookup_aupdate_ne _ _ _ _ hne]
  · obtain ⟨r4, hl4, _, hrq, hca⟩ :=
      step_status_forward (Reachable_inv hs3) hstep id3 r3 hl3
    exact ⟨r4, hl4, hrq, hca⟩

/-- Witness for C10 at the demo failing run and the demo start step. -/
theorem C10_failure_touches_only_status_error_witness :
    (∃ r, alookup demoS2.tasks 0 = some r ∧
      alookup (finishRun demoS2 [] [] demoJob envCannyEmptyMsg).tasks 0 =
        some { status := Status.failed, request_id := r.request_id,
               created_at := r.created_at, output_path := none,
               completed_at := none, error := some "" }) ∧
    alookup (finishRun demoS2 [] [] demoJob envCannyEmptyMsg).tasks 1 =
      alookup demoS2.tasks 1 ∧
    ∃ r4, alookup demoS2.tasks 0 = some r4 ∧
      r4.request_id = ({ status := Status.pending, request_id := "rid", created_at := 0, output_path := none, completed_at := none, error := none } : TaskRecord).request_id ∧
      r4.created_at = ({ status := Status.pending, request_id := "rid", created_at := 0, output_path := none, completed_at := none, error := none } : TaskRecord).created_at :=
  C10_failure_touches_only_status_error demoS2
    (Reachable.step
      (Reachable.step (Reachable.init true 0 0)
        (Step.submit demoService0 2000 1000 "rid" "modern" "living room" none))
      (Step.start demoS1 [] [] demoJob rfl))
    [] [] demoJob envCannyEmptyMsg "" 1 demoS1 demoS2 0
    { status := Status.pending, request_id := "rid", created_at := 0,
      output_path := none, completed_at := none, error := none }
    rfl rfl (by decide)
    (Reachable.step (Reachable.init true 0 0)
      (Step.submit demoService0 2000 1000 "rid" "modern" "living room" none))
    (Step.start demoS1 [] [] demoJob rfl) rfl

end Img2Img
